import Mathlib

/-!
# Verification development for the level editor tab (`Source/editortab.cpp`)

A shallow embedding of the command-based mutation model of `EditorTab`:
the two undo commands (`SetSelectionCommand`, `MoveItemsCommand`), the undo
stack they are pushed on, and the property inspector binding
(`AddProperties`, `PopulatePropertyEditor`).

Conventions of the embedding

* `qreal` coordinates are modelled as `Int` (a type with decidable equality;
  NaN is not represented).
* A `QGraphicsItem*` is an `ItemRef`: the dynamic type of the item together
  with an index identifying the object.
* A possibly-null pointer is an `Option`; dereferencing `none` makes the
  enclosing function return `none`.
* The set returned by `QGraphicsScene::selectedItems()` is a `Finset ItemRef`.
-/

namespace QtEditor

/-! ## Geometry values -/

/-- Qt rectangle value (`QRectF`), compared with `!=` in the source. -/
structure QRectF where
  x : Int
  y : Int
  w : Int
  h : Int
  deriving DecidableEq, Repr

/-- Qt line value (`QLineF`), compared with `!=` in the source. -/
structure QLineF where
  x1 : Int
  y1 : Int
  x2 : Int
  y2 : Int
  deriving DecidableEq, Repr

/-- Entry of `ItemPositionData` for a map-object rectangle: the fields `x`, `y`
and `rect` read by the `MoveItemsCommand` constructor. -/
structure RectPos where
  x : Int
  y : Int
  rect : QRectF
  deriving DecidableEq, Repr

/-- Entry of `ItemPositionData` for a collision line: the fields `x`, `y` and
`line` read by the `MoveItemsCommand` constructor. -/
structure LinePos where
  x : Int
  y : Int
  line : QLineF
  deriving DecidableEq, Repr

/-- A `QGraphicsItem*` together with what `qgraphicsitem_cast` reports for it:
a `ResizeableRectItem` (map object), a `ResizeableArrowItem` (collision line)
or another item such as a `CameraGraphicsItem`. -/
inductive ItemRef where
  | rect (i : Nat)
  | line (i : Nat)
  | camera (i : Nat)
  deriving DecidableEq, Repr

/-- Modelled from the spec: ItemPositionData (declared in a header outside the
available sources). It "captures old/new geometry for one-or-many items": a
keyed collection of rectangle entries and one of line entries. Only the
operations used by `editortab.cpp` are modelled: `Count`, `FirstRectPos`,
`FirstLinePos` and `Restore`. -/
structure ItemPositionData where
  mRects : List (Nat × RectPos)
  mLines : List (Nat × LinePos)
  deriving DecidableEq, Repr

namespace ItemPositionData

/-- Number of captured items. -/
def Count (d : ItemPositionData) : Nat := d.mRects.length + d.mLines.length

/-- Pointer to the first captured rectangle entry, null when there is none. -/
def FirstRectPos (d : ItemPositionData) : Option RectPos := d.mRects.head?.map Prod.snd

/-- Pointer to the first captured line entry, null when there is none. -/
def FirstLinePos (d : ItemPositionData) : Option LinePos := d.mLines.head?.map Prod.snd

end ItemPositionData

/-! ## `MoveItemsCommand` constructor: label selection (lines 101-153) -/

/-- Label set by the `MoveItemsCommand` constructor. `none` stands for the
dereference of a null `FirstLinePos()` / `FirstRectPos()` result. -/
def MoveItemsCommand.ctorText (mOldPositions mNewPositions : ItemPositionData) : Option String :=
  if mNewPositions.Count = 1 then
    let pNewLine := mNewPositions.FirstLinePos
    let pOldRect := mOldPositions.FirstRectPos
    match pNewLine with
    | some newLine =>
      match mOldPositions.FirstLinePos with
      | none => none
      | some oldLine =>
        let posChange : Bool := oldLine.x != newLine.x || oldLine.y != newLine.y
        let lineChanged : Bool := oldLine.line != newLine.line
        if posChange && lineChanged then
          some "Move and resize collision"
        else if posChange && !lineChanged then
          some "Move collision"
        else
          some "Move collision point"
    | none =>
      match mNewPositions.FirstRectPos, pOldRect with
      | some newRect, some oldRect =>
        let posChange : Bool := oldRect.x != newRect.x || oldRect.y != newRect.y
        let rectChanged : Bool := newRect.rect != oldRect.rect
        if posChange && rectChanged then
          some "Move and resize map object"
        else if posChange && !rectChanged then
          some "Move map object"
        else
          some "Resize map object"
      | _, _ => none
  else
    some ("Move " ++ toString mNewPositions.Count ++ " item(s)")

/-! ## Document data read by the property inspector -/

/-- Schema entry of a basic type (only its identity matters here). -/
structure BasicType where
  name : String
  deriving DecidableEq, Repr

/-- Schema entry of an enum (only its identity matters here). -/
structure Enum where
  name : String
  deriving DecidableEq, Repr

/-- Result of `Model::FindType`: two possibly-null schema pointers. -/
structure FoundType where
  mBasicType : Option BasicType
  mEnum : Option Enum
  deriving DecidableEq, Repr

/-- The schema lookups of `Model` used by `EditorTab::AddProperties`. The class
`Model` is not part of the available sources; its three lookups are taken as
parameters. -/
structure Model where
  FindType : String → FoundType
  FindBasicType : String → Option BasicType
  FindEnum : String → Option Enum

/-- The fields of `ObjectProperty` read by `AddProperties`. -/
structure ObjectProperty where
  mName : String
  mTypeName : String
  mVisible : Bool
  mBasicTypeValue : Int
  mEnumValue : String
  deriving DecidableEq, Repr

/-- The fields of `MapObject` read by `PopulatePropertyEditor`. -/
structure MapObject where
  mName : String
  mProperties : List ObjectProperty
  deriving DecidableEq, Repr

/-- The fields of `CollisionObject` read by `PopulatePropertyEditor`. -/
structure CollisionObject where
  mProperties : List ObjectProperty
  deriving DecidableEq, Repr

/-- A row of the property tree: which `PropertyTreeItemBase` subclass was
constructed and with which arguments. -/
inductive Row where
  | stringProperty (label : String) (value : String)
  | basicTypeProperty (label : String) (value : Int) (pBasicType : Option BasicType)
  | enumProperty (label : String) (value : String) (pEnum : Option Enum)
  deriving DecidableEq, Repr

/-- The constant `kIndent`. -/
def kIndent : String := "    "

/-- One iteration of the loop of `EditorTab::AddProperties`: the rows appended
for one property. -/
def AddProperty (mModel : Model) (property : ObjectProperty) : List Row :=
  if property.mVisible then
    let foundType := mModel.FindType property.mTypeName
    if foundType.mBasicType.isSome then
      let pBasicType := mModel.FindBasicType property.mTypeName
      [Row.basicTypeProperty (kIndent ++ property.mName) property.mBasicTypeValue pBasicType]
    else if foundType.mEnum.isSome then
      let pEnum := mModel.FindEnum property.mTypeName
      [Row.enumProperty (kIndent ++ property.mName) property.mEnumValue pEnum]
    else
      []
  else
    []

/-- Embedding of `EditorTab::AddProperties` (lines 403-422): appends to `items` the rows of
the properties, in property order. -/
def AddProperties (mModel : Model) (items : List Row) : List ObjectProperty → List Row
  | [] => items
  | property :: props => AddProperties mModel (items ++ AddProperty mModel property) props

/-! ## The scene -/

/-- Modelled from the spec: the scene graph (`QGraphicsScene` and the geometry
of its items, a library outside the available sources): "Selection: the
current set of Visual Items marked selected" and, per visual item, its
"screen-space geometry (position, size/line endpoints)". Rect items and line
items are indexed separately, as they are distinct pointer types. -/
@[ext]
structure Scene where
  selected : Finset ItemRef
  rects : Nat → RectPos
  lines : Nat → LinePos

namespace Scene

/-- The call `QGraphicsScene::clearSelection()`. -/
def clearSelection (s : Scene) : Scene := { s with selected := ∅ }

/-- The call `item->setSelected(true)` on an item of the scene (every item a
command captured was selected by the user, hence selectable). -/
def setSelected (s : Scene) (item : ItemRef) : Scene :=
  { s with selected := insert item s.selected }

/-- The call `QGraphicsScene::selectedItems()`. -/
def selectedItems (s : Scene) : Finset ItemRef := s.selected

end Scene

/-- Restoring one rectangle entry: the item gets the saved rect and position. -/
def restoreRect (s : Scene) (e : Nat × RectPos) : Scene :=
  { s with rects := Function.update s.rects e.1 e.2 }

/-- Restoring one line entry: the item gets the saved line and position. -/
def restoreLine (s : Scene) (e : Nat × LinePos) : Scene :=
  { s with lines := Function.update s.lines e.1 e.2 }

/-- Modelled from the spec: ItemPositionData::Restore (defined outside the
available sources). "Applying restores the exact geometry snapshot (not a
delta)": every captured item gets back its captured geometry. -/
def ItemPositionData.Restore (d : ItemPositionData) (s : Scene) : Scene :=
  d.mLines.foldl restoreLine (d.mRects.foldl restoreRect s)

/-- The only element of a list of length one. -/
def soleOfList {α : Type} : List α → Option α
  | [a] => some a
  | _ => none

/-- The value of `selected[0]` when `selected.count() == 1`, and `none` for any
other count: the only element of a finite set. -/
def soleItem (s : Finset ItemRef) : Option ItemRef :=
  Quot.liftOn s.val soleOfList (by
    intro a b hab
    have hlen : a.length = b.length := List.Perm.length_eq hab
    match a, b, hab, hlen with
    | [], [], _, _ => rfl
    | [x], [y], h, _ =>
      have : x = y := by
        have := h.subset (List.mem_singleton_self x)
        simpa using this
      simp [soleOfList, this]
    | _ :: _ :: _, _ :: _ :: _, _, _ => rfl)

/-! ## Commands, undo stack and tab state -/

/-- State of a `SetSelectionCommand` object (the pointers to the tab and the
scene are implicit: there is one tab and one scene). -/
structure SetSelectionCommand where
  mOldSelection : List ItemRef
  mNewSelection : List ItemRef
  mFirst : Bool
  text : String
  deriving DecidableEq, Repr

/-- The `SetSelectionCommand` constructor (lines 33-48). -/
def SetSelectionCommand.new (oldSelection newSelection : List ItemRef) : SetSelectionCommand :=
  { mOldSelection := oldSelection
    mNewSelection := newSelection
    mFirst := true
    text :=
      if newSelection.length > 0 then
        "Select " ++ toString newSelection.length ++ " item(s)"
      else
        "Clear selection" }

/-- State of a `MoveItemsCommand` object. -/
structure MoveItemsCommand where
  mOldPositions : ItemPositionData
  mNewPositions : ItemPositionData
  mFirst : Bool
  text : String
  deriving DecidableEq, Repr

/-- The `MoveItemsCommand` constructor (lines 101-153); `none` when it
dereferences a null entry pointer. -/
def MoveItemsCommand.new (oldPositions newPositions : ItemPositionData) : Option MoveItemsCommand :=
  (MoveItemsCommand.ctorText oldPositions newPositions).map fun t =>
    { mOldPositions := oldPositions
      mNewPositions := newPositions
      mFirst := true
      text := t }

/-- A `QUndoCommand*` held by the undo stack of a tab. -/
inductive Command where
  | setSelection (c : SetSelectionCommand)
  | moveItems (c : MoveItemsCommand)
  deriving DecidableEq, Repr

/-- Modelled from the spec: the Command Stack (`QUndoStack`, a library class
outside the available sources). "Each command occupies one slot in a linear
sequence; the stack has a cursor separating done (undoable) from undone
(redoable) commands", and the history is bounded by a configured limit
(`0` means unbounded). -/
structure QUndoStack where
  command_list : List Command
  index : Nat
  undo_limit : Nat

/-- Modelled from the spec: storing a command pushed on the Command Stack
(`QUndoStack::push`, library code outside the available sources). "Pushing a
new command while the cursor is not at the end discards all undone commands
beyond the cursor"; "when the count of done commands exceeds the configured
limit, the oldest done command is permanently dropped". -/
def QUndoStack.pushed (st : QUndoStack) (cmd : Command) : QUndoStack :=
  let appended := st.command_list.take st.index ++ [cmd]
  let del_count := if st.undo_limit = 0 then 0 else appended.length - st.undo_limit
  { st with
    command_list := appended.drop del_count
    index := st.index - del_count + 1 }

/-- State of an `EditorTab`: the schema lookups of its model, the document
object behind each visual item, the scene, the rows of the property tree and
the object the tree was last bound to, and the undo stack. -/
structure EditorTab where
  mModel : Model
  mapObjectOf : Nat → MapObject
  collisionOf : Nat → CollisionObject
  mScene : Scene
  treeWidget : List Row
  treeObject : Option ItemRef
  mUndoStack : QUndoStack

namespace EditorTab

/-- Embedding of `EditorTab::ClearPropertyEditor` (lines 396-399). -/
def ClearPropertyEditor (t : EditorTab) : EditorTab := { t with treeWidget := [] }

/-- The local list `items` built by `EditorTab::PopulatePropertyEditor` before
it is inserted in the tree (lines 433-448). -/
def populateItems (t : EditorTab) (pItem : ItemRef) : List Row :=
  match pItem with
  | ItemRef.rect i =>
    let pMapObject := t.mapObjectOf i
    AddProperties t.mModel [Row.stringProperty (kIndent ++ "Name") pMapObject.mName]
      pMapObject.mProperties
  | ItemRef.line i =>
    let pCollisionItem := t.collisionOf i
    AddProperties t.mModel [] pCollisionItem.mProperties
  | ItemRef.camera _ => []

/-- Embedding of `EditorTab::PopulatePropertyEditor` (lines 424-461): clears the tree, binds
it to the object of a rect or line item and inserts the rows at position 0.
The platform-specific row colouring is not modelled. -/
def PopulatePropertyEditor (t : EditorTab) (pItem : ItemRef) : EditorTab :=
  let t1 := t.ClearPropertyEditor
  let bound : Option ItemRef :=
    match pItem with
    | ItemRef.rect i => some (ItemRef.rect i)
    | ItemRef.line i => some (ItemRef.line i)
    | ItemRef.camera _ => t1.treeObject
  { t1 with treeObject := bound, treeWidget := t.populateItems pItem ++ t1.treeWidget }

end EditorTab

/-- The loop `for (auto& item : selection) item->setSelected(true)`. -/
def selectAll (items : List ItemRef) (s : Scene) : Scene :=
  items.foldl Scene.setSelected s

namespace SetSelectionCommand

/-- Embedding of `SetSelectionCommand::SyncPropertyEditor` (lines 76-87). -/
def SyncPropertyEditor (t : EditorTab) : EditorTab :=
  match soleItem t.mScene.selectedItems with
  | some item => t.PopulatePropertyEditor item
  | none => t.ClearPropertyEditor

/-- Embedding of `SetSelectionCommand::redo` (lines 50-63): the command after the call and
the tab after the call. -/
def redo (c : SetSelectionCommand) (t : EditorTab) : SetSelectionCommand × EditorTab :=
  let t1 : EditorTab :=
    if !c.mFirst then
      { t with mScene := selectAll c.mNewSelection t.mScene.clearSelection }
    else
      t
  ({ c with mFirst := false }, SyncPropertyEditor t1)

/-- Embedding of `SetSelectionCommand::undo` (lines 65-74). -/
def undo (c : SetSelectionCommand) (t : EditorTab) : EditorTab :=
  SyncPropertyEditor { t with mScene := selectAll c.mOldSelection t.mScene.clearSelection }

end SetSelectionCommand

namespace MoveItemsCommand

/-- Embedding of `MoveItemsCommand::redo` (lines 155-163). -/
def redo (c : MoveItemsCommand) (t : EditorTab) : MoveItemsCommand × EditorTab :=
  let t1 : EditorTab :=
    if !c.mFirst then
      { t with mScene := c.mNewPositions.Restore t.mScene }
    else
      t
  ({ c with mFirst := false }, t1)

/-- Embedding of `MoveItemsCommand::undo` (lines 165-169). -/
def undo (c : MoveItemsCommand) (t : EditorTab) : EditorTab :=
  { t with mScene := c.mOldPositions.Restore t.mScene }

end MoveItemsCommand

namespace Command

/-- Virtual dispatch of `QUndoCommand::redo`. -/
def redo : Command → EditorTab → Command × EditorTab
  | setSelection c, t => (setSelection (c.redo t).1, (c.redo t).2)
  | moveItems c, t => (moveItems (c.redo t).1, (c.redo t).2)

/-- Virtual dispatch of `QUndoCommand::undo`. -/
def undo : Command → EditorTab → EditorTab
  | setSelection c, t => c.undo t
  | moveItems c, t => c.undo t

end Command

namespace EditorTab

/-- Modelled from the spec: `QUndoStack::push` (library code outside the
available sources) as called by the two handlers. The pushed command is
executed through its `redo()` (the "very first `redo()` call immediately
following construction") and then stored by the stack. -/
def push (t : EditorTab) (cmd : Command) : EditorTab :=
  let r := cmd.redo t
  { r.2 with mUndoStack := r.2.mUndoStack.pushed r.1 }

/-- The handler connected to `EditorGraphicsScene::SelectionChanged`
(lines 235-238). -/
def onSelectionChanged (t : EditorTab) (oldSelection newSelection : List ItemRef) : EditorTab :=
  t.push (Command.setSelection (SetSelectionCommand.new oldSelection newSelection))

/-- The handler connected to `EditorGraphicsScene::ItemsMoved` (lines 240-243);
`none` when the command constructor dereferences a null pointer. -/
def onItemsMoved (t : EditorTab) (oldPositions newPositions : ItemPositionData) :
    Option EditorTab :=
  (MoveItemsCommand.new oldPositions newPositions).map fun c => t.push (Command.moveItems c)

/-- Modelled from the spec: `QUndoStack::undo` (library code outside the
available sources), acting on the tab that owns the stack. "No-op if cursor at
start; otherwise applies the before-state of the command at cursor-1 and
decrements cursor". -/
def stackUndo (t : EditorTab) : EditorTab :=
  let st := t.mUndoStack
  if st.index = 0 then t
  else
    match st.command_list[st.index - 1]? with
    | none => t
    | some cmd =>
      let t1 := cmd.undo t
      { t1 with mUndoStack := { st with index := st.index - 1 } }

/-- Modelled from the spec: `QUndoStack::redo` (library code outside the
available sources), acting on the tab that owns the stack. "No-op if cursor at
end; otherwise applies the after-state of the command at cursor and increments
cursor". -/
def stackRedo (t : EditorTab) : EditorTab :=
  let st := t.mUndoStack
  if st.index = st.command_list.length then t
  else
    match st.command_list[st.index]? with
    | none => t
    | some cmd =>
      let r := cmd.redo t
      { r.2 with
        mUndoStack :=
          { st with
            command_list := st.command_list.set st.index r.1
            index := st.index + 1 } }

/-- Embedding of `EditorTab::Undo` (lines 463-466): `mUndoStack.undo()`. -/
def Undo (t : EditorTab) : EditorTab := t.stackUndo

/-- Embedding of `EditorTab::Redo` (lines 468-471): `mUndoStack.redo()`. -/
def Redo (t : EditorTab) : EditorTab := t.stackRedo

/-- The undo limit configured by the `EditorTab` constructor
(`mUndoStack.setUndoLimit(100)`, line 291). -/
def kUndoLimit : Nat := 100

/-- The undo stack of a freshly constructed tab: empty, with the limit set. -/
def initialUndoStack : QUndoStack := { command_list := [], index := 0, undo_limit := kUndoLimit }

end EditorTab

/-! ## Specification-side definitions and concrete data used in the statements -/

/-- Whether the position recorded by two rectangle entries differs. -/
def rectPosChanged (o n : RectPos) : Prop := o.x ≠ n.x ∨ o.y ≠ n.y

/-- Whether the position recorded by two line entries differs. -/
def linePosChanged (o n : LinePos) : Prop := o.x ≠ n.x ∨ o.y ≠ n.y

instance (o n : RectPos) : Decidable (rectPosChanged o n) := by
  unfold rectPosChanged; infer_instance

instance (o n : LinePos) : Decidable (linePosChanged o n) := by
  unfold linePosChanged; infer_instance

/-- Position data capturing exactly one map-object rectangle. -/
def singleRect (k : Nat) (r : RectPos) : ItemPositionData := { mRects := [(k, r)], mLines := [] }

/-- Position data capturing exactly one collision line. -/
def singleLine (k : Nat) (l : LinePos) : ItemPositionData := { mRects := [], mLines := [(k, l)] }

/-- Whether the type name of a property resolves to a basic type or an enum. -/
def typeResolves (m : Model) (p : ObjectProperty) : Bool :=
  (m.FindType p.mTypeName).mBasicType.isSome || (m.FindType p.mTypeName).mEnum.isSome

/-- The row expected for a property whose type resolves: a basic-type row when
the type resolves to a basic type, an enum row otherwise. -/
def specRowOf (m : Model) (p : ObjectProperty) : Row :=
  if (m.FindType p.mTypeName).mBasicType.isSome then
    Row.basicTypeProperty (kIndent ++ p.mName) p.mBasicTypeValue (m.FindBasicType p.mTypeName)
  else
    Row.enumProperty (kIndent ++ p.mName) p.mEnumValue (m.FindEnum p.mTypeName)

/-- The rows expected for a property list: one per visible property whose type
resolves, in property order. -/
def specPropertyRows (m : Model) (props : List ObjectProperty) : List Row :=
  (props.filter fun p => p.mVisible && typeResolves m p).map (specRowOf m)

/-- Whether a row is a string-typed edit. -/
def Row.isString : Row → Bool
  | Row.stringProperty _ _ => true
  | _ => false

/-- Example schema: `"int"` is a basic type, `"Scale"` an enum, nothing else
resolves. -/
def exModel : Model where
  FindType := fun n =>
    if n = "int" then { mBasicType := some { name := "int" }, mEnum := none }
    else if n = "Scale" then { mBasicType := none, mEnum := some { name := "Scale" } }
    else { mBasicType := none, mEnum := none }
  FindBasicType := fun n => if n = "int" then some { name := "int" } else none
  FindEnum := fun n => if n = "Scale" then some { name := "Scale" } else none

/-- Example property of basic type. -/
def exPropInt : ObjectProperty :=
  { mName := "Id", mTypeName := "int", mVisible := true, mBasicTypeValue := 7, mEnumValue := "" }

/-- Example property of enum type. -/
def exPropEnum : ObjectProperty :=
  { mName := "Scale", mTypeName := "Scale", mVisible := true, mBasicTypeValue := 0,
    mEnumValue := "Full" }

/-- Example visible property whose type name resolves to nothing. -/
def exPropUnknown : ObjectProperty :=
  { mName := "Mystery", mTypeName := "future_type", mVisible := true, mBasicTypeValue := 0,
    mEnumValue := "" }

/-- Example scene: nothing selected, every item at the origin with empty shape. -/
def exScene : Scene where
  selected := ∅
  rects := fun _ => { x := 0, y := 0, rect := { x := 0, y := 0, w := 0, h := 0 } }
  lines := fun _ => { x := 0, y := 0, line := { x1 := 0, y1 := 0, x2 := 0, y2 := 0 } }

/-- Example tab: every map object is named `"Door"` and has an unresolved, a
basic-type and an enum property; every collision has one basic-type property. -/
def exTab : EditorTab where
  mModel := exModel
  mapObjectOf := fun _ => { mName := "Door", mProperties := [exPropUnknown, exPropInt, exPropEnum] }
  collisionOf := fun _ => { mProperties := [exPropInt] }
  mScene := exScene
  treeWidget := []
  treeObject := none
  mUndoStack := EditorTab.initialUndoStack

/-- The scene whose selected set is exactly the items of a list, geometry
untouched. -/
def withSelection (items : List ItemRef) (s : Scene) : Scene :=
  { s with selected := items.toFinset }

/-- The command object after a number of `redo()` calls, issued at the given
tab states. -/
def redoChain (c : SetSelectionCommand) : List EditorTab → SetSelectionCommand
  | [] => c
  | t :: ts => redoChain (c.redo t).1 ts

/-- Overwriting a geometry table with the entries of a snapshot, in order. -/
def applyEntries {β : Type} (l : List (Nat × β)) (f : Nat → β) : Nat → β :=
  l.foldl (fun g e => Function.update g e.1 e.2) f

/-- The rect items captured by a snapshot. -/
def ItemPositionData.rectKeys (d : ItemPositionData) : List Nat := d.mRects.map Prod.fst

/-- The line items captured by a snapshot. -/
def ItemPositionData.lineKeys (d : ItemPositionData) : List Nat := d.mLines.map Prod.fst

/-- Every item captured by `b` is also captured by `a`. -/
def ItemPositionData.covers (a b : ItemPositionData) : Prop :=
  b.rectKeys ⊆ a.rectKeys ∧ b.lineKeys ⊆ a.lineKeys

/-- Example move command after its first `redo()`: rect item 1 moved from
(0,0) to (5,5). -/
def exMoveCmdSame : MoveItemsCommand :=
  { mOldPositions := singleRect 1 ⟨0, 0, ⟨0, 0, 10, 10⟩⟩
    mNewPositions := singleRect 1 ⟨5, 5, ⟨0, 0, 10, 10⟩⟩
    mFirst := false
    text := "Move map object" }

/-- The flag `mFirst` of a command. -/
def Command.mFirst : Command → Bool
  | Command.setSelection c => c.mFirst
  | Command.moveItems c => c.mFirst

/-- The command with its flag `mFirst` cleared, as `redo()` leaves it. -/
def Command.done : Command → Command
  | Command.setSelection c => Command.setSelection { c with mFirst := false }
  | Command.moveItems c => Command.moveItems { c with mFirst := false }

/-- The before-state of a command applied to a scene. -/
def Command.oldScene : Command → Scene → Scene
  | Command.setSelection c, s => withSelection c.mOldSelection s
  | Command.moveItems c, s => c.mOldPositions.Restore s

/-- The after-state of a command applied to a scene. -/
def Command.newScene : Command → Scene → Scene
  | Command.setSelection c, s => withSelection c.mNewSelection s
  | Command.moveItems c, s => c.mNewPositions.Restore s

/-- One user gesture: the scene interaction leaves the scene in the state `g.1`
and the handler then pushes the command `g.2`. -/
def EditorTab.gesture (t : EditorTab) (g : Scene × Command) : EditorTab :=
  ({ t with mScene := g.1 } : EditorTab).push g.2

/-- Each command of a gesture sequence records its gesture: its after-state
applied to the scene before the gesture is the scene after the gesture, and
its before-state applied to the scene after the gesture is the scene before. -/
def Records : Scene → List (Scene × Command) → Prop
  | _, [] => True
  | s, g :: gs => g.2.newScene s = g.1 ∧ g.2.oldScene g.1 = s ∧ Records g.1 gs

/-- The scene after a gesture sequence started in scene `s`. -/
def finalScene : Scene → List (Scene × Command) → Scene
  | s, [] => s
  | _, g :: gs => finalScene g.1 gs

/-- Number of commands dropped from the bottom of the stack by a push that
follows `K` undos. -/
def prunedDrop (t : EditorTab) (K : Nat) : Nat :=
  if t.mUndoStack.undo_limit = 0 then 0
  else t.mUndoStack.index - K + 1 - t.mUndoStack.undo_limit

/-- The tab `t2` is what a push of `cmd` after `K` undos on `t` must give:
the stack holds commands of the first `index - K` slots followed by the new
command, the cursor is at the end, and a following `Redo` changes nothing. -/
def PrunedAfter (t : EditorTab) (K : Nat) (cmd : Command) (t2 : EditorTab) : Prop :=
  t2.mUndoStack.command_list =
      (t.mUndoStack.command_list.take (t.mUndoStack.index - K)).drop (prunedDrop t K)
        ++ [cmd.done] ∧
    t2.mUndoStack.index = t2.mUndoStack.command_list.length ∧
    t2.Redo = t2

/-- Example gestures on the example tab: rect item 1 is selected, then moved
from the origin to (5,5). -/
def exGestures : List (Scene × Command) :=
  [ (withSelection [ItemRef.rect 1] exScene,
      Command.setSelection (SetSelectionCommand.new [] [ItemRef.rect 1])),
    ((singleRect 1 ⟨5, 5, ⟨0, 0, 0, 0⟩⟩).Restore (withSelection [ItemRef.rect 1] exScene),
      Command.moveItems
        { mOldPositions := singleRect 1 ⟨0, 0, ⟨0, 0, 0, 0⟩⟩
          mNewPositions := singleRect 1 ⟨5, 5, ⟨0, 0, 0, 0⟩⟩
          mFirst := true
          text := "Move map object" }) ]

/-- Example history: the same selection gesture made `kUndoLimit + 5` times. -/
def exLongHistory : List (Scene × Command) :=
  List.replicate (EditorTab.kUndoLimit + 5)
    (withSelection [ItemRef.rect 1] exScene,
      Command.setSelection (SetSelectionCommand.new [] [ItemRef.rect 1]))

/-! ## Zoom (lines 25-28 and 364-389) -/

/-- A finite binary floating-point number `mant * 2 ^ exp`. It stands for the
values of type `float` (IEEE binary32) of the zoom code; the exponent range of
the format is not modelled, as the zoom values stay far away from overflow
and underflow. -/
structure F32 where
  mant : Int
  exp : Int
  deriving DecidableEq, Repr

namespace F32

/-- Number of binary digits of a natural number, counted with the given fuel. -/
def bitLengthAux : Nat → Nat → Nat
  | 0, _ => 0
  | fuel + 1, n => if n = 0 then 0 else bitLengthAux fuel (n / 2) + 1

/-- Number of binary digits of a natural number (`0` for `0`). -/
def bitLength (n : Nat) : Nat := bitLengthAux n n

/-- Rounding of a natural number to 24 significant bits, to nearest with ties
to even: the rounded significand and the number of low bits dropped. -/
def roundNat (n : Nat) : Nat × Nat :=
  let bits := bitLength n
  if bits ≤ 24 then (n, 0)
  else
    let shift := bits - 24
    let q := n / 2 ^ shift
    let r := n % 2 ^ shift
    let half := 2 ^ (shift - 1)
    if r < half then (q, shift)
    else if r > half then (q + 1, shift)
    else if q % 2 = 0 then (q, shift) else (q + 1, shift)

/-- The binary32 value nearest to the exact number `m * 2 ^ e` (round to
nearest, ties to even), as every binary32 operation returns it. -/
def round (m : Int) (e : Int) : F32 :=
  let r := roundNat m.natAbs
  { mant := (if m < 0 then -(r.1 : Int) else (r.1 : Int)), exp := e + r.2 }

/-- The significand of a value written with the exponent `e`, for `e` not
above its own exponent. -/
def alignedMant (a : F32) (e : Int) : Int := a.mant * 2 ^ (a.exp - e).toNat

/-- The binary32 sum `a + b`. -/
def add (a b : F32) : F32 :=
  let e := min a.exp b.exp
  round (a.alignedMant e + b.alignedMant e) e

/-- The binary32 difference `a - b`. -/
def sub (a b : F32) : F32 :=
  let e := min a.exp b.exp
  round (a.alignedMant e - b.alignedMant e) e

/-- The binary32 product `a * b`. -/
def mul (a b : F32) : F32 := round (a.mant * b.mant) (a.exp + b.exp)

/-- The comparison `a < b`. -/
def lt (a b : F32) : Bool :=
  let e := min a.exp b.exp
  decide (a.alignedMant e < b.alignedMant e)

/-- The exact value of a binary32 number. -/
def toRat (a : F32) : ℚ := a.mant * (2 : ℚ) ^ a.exp

/-- The literal `1.0f`. -/
def one : F32 := { mant := 1, exp := 0 }

end F32

/-- The constant `KZoomFactor = 0.10f` ("zoom by 10% each time"): the binary32
value nearest to one tenth, `13421773 * 2 ^ (-27)`. -/
def KZoomFactor : F32 := { mant := 13421773, exp := -27 }

/-- The constant `KMaxZoomOutLevels = 5.0f`. -/
def KMaxZoomOutLevels : F32 := { mant := 5, exp := 0 }

/-- The constant `KMaxZoomInLevels = 14.0f`. -/
def KMaxZoomInLevels : F32 := { mant := 14, exp := 0 }

/-- The zoom-related state of an `EditorTab`: the member `iZoomLevel`, a
`float` like the constants it is assigned from and compared with, and the
scale factor of the transform of the graphics view. -/
structure ZoomView where
  iZoomLevel : F32
  viewScale : F32
  deriving DecidableEq, Repr

namespace ZoomView

/-- The zoom state set up by the `EditorTab` constructor (`iZoomLevel = 1.0f`,
line 245; the view is not transformed). -/
def initial : ZoomView := { iZoomLevel := F32.one, viewScale := F32.one }

/-- Embedding of `EditorTab::ZoomIn` (lines 364-372). -/
def ZoomIn (v : ZoomView) : ZoomView :=
  if F32.lt v.iZoomLevel (F32.add F32.one (F32.mul KZoomFactor KMaxZoomInLevels)) then
    { iZoomLevel := F32.add v.iZoomLevel KZoomFactor
      viewScale := F32.add v.iZoomLevel KZoomFactor }
  else
    v

/-- Embedding of `EditorTab::ZoomOut` (lines 374-382). -/
def ZoomOut (v : ZoomView) : ZoomView :=
  if F32.lt (F32.sub F32.one (F32.mul KZoomFactor KMaxZoomOutLevels)) v.iZoomLevel then
    { iZoomLevel := F32.sub v.iZoomLevel KZoomFactor
      viewScale := F32.sub v.iZoomLevel KZoomFactor }
  else
    v

/-- Embedding of `EditorTab::ResetZoom` (lines 384-389). -/
def ResetZoom (_v : ZoomView) : ZoomView :=
  { iZoomLevel := F32.one, viewScale := F32.one }

end ZoomView

/-- One of the three zoom calls. -/
inductive ZoomCall where
  | zoomIn
  | zoomOut
  | resetZoom
  deriving DecidableEq, Repr

/-- Performing a zoom call. -/
def ZoomCall.apply : ZoomCall → ZoomView → ZoomView
  | ZoomCall.zoomIn, v => v.ZoomIn
  | ZoomCall.zoomOut, v => v.ZoomOut
  | ZoomCall.resetZoom, v => v.ResetZoom

/-- Performing a finite sequence of zoom calls, first call first. -/
def zoomRun (calls : List ZoomCall) (v : ZoomView) : ZoomView :=
  calls.foldl (fun v c => c.apply v) v

/-! ## The inspector call chosen by `SyncPropertyEditor` -/

/-- The call `SetSelectionCommand::SyncPropertyEditor` makes on the tab. -/
inductive InspectorCall where
  | populate (item : ItemRef)
  | clear
  deriving DecidableEq, Repr

/-- The branch taken by `SetSelectionCommand::SyncPropertyEditor` (lines 78-86):
`PopulatePropertyEditor(selected[0])` when `selected.count() == 1`, and
`ClearPropertyEditor()` otherwise. -/
def syncCall (selected : Finset ItemRef) : InspectorCall :=
  match soleItem selected with
  | some item => InspectorCall.populate item
  | none => InspectorCall.clear

/-- Performing an inspector call on a tab. -/
def InspectorCall.perform : InspectorCall → EditorTab → EditorTab
  | InspectorCall.populate item, t => t.PopulatePropertyEditor item
  | InspectorCall.clear, t => t.ClearPropertyEditor

/-! ## The main window (`Source/EditorMainWindow.cpp`) -/

/-- The exception classes of the level API named by the catch chain of
`EditorMainWindow::onOpenPath` (lines 200-314), in the order of the chain;
`Exception` is the base class caught last. The classes are declared in a
header outside the available sources and are taken to be distinct siblings
below `Exception`. -/
inductive ReliveApiErrorKind where
  | IOReadException
  | IOWriteException
  | UnknownEnumValueException
  | IOReadPastEOFException
  | EmptyPropertyNameException
  | EmptyTypeNameException
  | DuplicatePropertyKeyException
  | DuplicatePropertyNameException
  | DuplicateEnumNameException
  | PropertyNotFoundException
  | InvalidGameException
  | InvalidJsonException
  | JsonVersionTooNew
  | JsonVersionTooOld
  | BadCameraNameException
  | JsonNeedsUpgradingException
  | OpenPathException
  | CollisionsCountChangedException
  | CameraOutOfBoundsException
  | UnknownStructureTypeException
  | WrongTLVLengthException
  | JsonKeyNotFoundException
  | Exception
  deriving DecidableEq, Repr

/-- A thrown level API exception: its dynamic class, the text of `what()` and
the text of `Key()` (read for `JsonKeyNotFoundException` only). -/
structure ReliveApiError where
  kind : ReliveApiErrorKind
  what : String
  key : String
  deriving DecidableEq, Repr

/-- The kind-specific text each catch clause puts in front of the detail of
the exception; the clause for the base class adds none. -/
def catchPrefix : ReliveApiErrorKind → String
  | ReliveApiErrorKind.IOReadException => "IO read failure: "
  | ReliveApiErrorKind.IOWriteException => "IO write failure: "
  | ReliveApiErrorKind.UnknownEnumValueException => "Unknown enum value: "
  | ReliveApiErrorKind.IOReadPastEOFException => "IO read past EOF: "
  | ReliveApiErrorKind.EmptyPropertyNameException => "Empty property name: "
  | ReliveApiErrorKind.EmptyTypeNameException => "Empty type name: "
  | ReliveApiErrorKind.DuplicatePropertyKeyException => "Duplicated property key: "
  | ReliveApiErrorKind.DuplicatePropertyNameException => "Duplicated property name: "
  | ReliveApiErrorKind.DuplicateEnumNameException => "Duplicated enum name: "
  | ReliveApiErrorKind.PropertyNotFoundException => "Property not found: "
  | ReliveApiErrorKind.InvalidGameException => "Invalid game name: "
  | ReliveApiErrorKind.InvalidJsonException => "Invalid json, can't parse: "
  | ReliveApiErrorKind.JsonVersionTooNew => "Json version too new: "
  | ReliveApiErrorKind.JsonVersionTooOld => "Json version too old: "
  | ReliveApiErrorKind.BadCameraNameException => "Bad camera name: "
  | ReliveApiErrorKind.JsonNeedsUpgradingException => "Json needs upgrading: "
  | ReliveApiErrorKind.OpenPathException => "Open path failure: "
  | ReliveApiErrorKind.CollisionsCountChangedException => "Collision count changed: "
  | ReliveApiErrorKind.CameraOutOfBoundsException => "Camera out of bounds: "
  | ReliveApiErrorKind.UnknownStructureTypeException => "Unknown structure record: "
  | ReliveApiErrorKind.WrongTLVLengthException => "TLV length is wrong: "
  | ReliveApiErrorKind.JsonKeyNotFoundException => "Missing json key: "
  | ReliveApiErrorKind.Exception => ""

/-- The detail each catch clause appends: `e.Key()` for
`JsonKeyNotFoundException`, `e.what()` for every other class. -/
def catchDetail (e : ReliveApiError) : String :=
  match e.kind with
  | ReliveApiErrorKind.JsonKeyNotFoundException => e.key
  | _ => e.what

/-- The text shown by `QMessageBox::critical` in the catch clause that handles
the exception (lines 200-314). -/
def catchMessage (e : ReliveApiError) : String :=
  catchPrefix e.kind ++ catchDetail e

/-- What `EditorMainWindow` reads from an `EditorTab`: `GetJsonFileName()`,
`IsClean()` and `GetModel().GetMapInfo().mGame`. -/
structure WindowTab where
  mJsonFileName : String
  isClean : Bool
  mGame : String
  deriving DecidableEq, Repr

/-- The clipboard as read by the paste handler: `IsEmpty()` and
`SourceGame()`. -/
structure ClipBoard where
  isEmpty : Bool
  sourceGame : String
  deriving DecidableEq, Repr

/-- State of the main window: the pages of the tab widget in order, its
current index (`-1` when there is none), the index of the stacked widget,
whether the menu actions are enabled (`setMenuActionsEnabled`), and the
clipboard. -/
structure EditorMainWindow where
  tabs : List WindowTab
  currentIndex : Int
  stackedIndex : Nat
  menuActionsEnabled : Bool
  mClipBoard : ClipBoard
  deriving DecidableEq, Repr

/-- The fields of the map info of a loaded model read by `onOpenPath`. -/
structure LoadedModel where
  mGame : String
  mPathBnd : String
  deriving DecidableEq, Repr

/-- The collaborators of `EditorMainWindow::onOpenPath`, none of which is part
of the available sources, taken as parameters: the level API calls (an
`Except.error` is a thrown exception), the outcome of the two dialogs (`none`
when the user did not pick), the generated temporary file name, the model
loading calls (`none` is a thrown `ModelException`), and `IsClean()` of a
newly constructed tab. -/
structure OpenEnv where
  EnumeratePaths : String → Except ReliveApiError (List Int)
  SelectedPath : List Int → Option Int
  getInt : Option Int
  tempFileFullPath : String
  ExportPathBinaryToJson : String → String → Int → Except ReliveApiError Unit
  LoadJson : String → Option LoadedModel
  CreateAsNewPath : LoadedModel → Int → Option LoadedModel
  newTabIsClean : Bool

/-- The characters of a string folded to lower case, for the comparisons made
with `Qt::CaseInsensitive`. -/
def lowerChars (s : String) : List Char := s.toList.map Char.toLower

/-- The test `fullFileName.endsWith(".lvl", Qt::CaseInsensitive)`. -/
def endsWithLvl (fullFileName : String) : Bool :=
  (".lvl".toList).isSuffixOf (lowerChars fullFileName)

/-- The test `a.compare(b, Qt::CaseInsensitive) == 0`. -/
def compareCaseInsensitiveEq (a b : String) : Bool :=
  lowerChars a == lowerChars b

/-- How the first `try` block of `onOpenPath` (lines 142-314) ends. -/
inductive Conversion where
  | proceed (fullFileName : String) (isTempfile : Bool) (newPathId : Int)
      (selectedPath : Option Int)
  | cancelled
  | failed (message : String)
  deriving DecidableEq, Repr

/-- The call of `ExportPathBinaryToJson` and what follows it in the first
`try` block (lines 184-197). -/
def exportToTemp (env : OpenEnv) (fullFileName : String) (selectedPath newPathId : Int) :
    Conversion :=
  match env.ExportPathBinaryToJson env.tempFileFullPath fullFileName selectedPath with
  | Except.error e => Conversion.failed (catchMessage e)
  | Except.ok _ => Conversion.proceed env.tempFileFullPath true newPathId (some selectedPath)

/-- The first `try` block of `onOpenPath` with its catch chain (lines 142-314):
a `.lvl` file is converted to a temporary json file, any other file name is
passed on unchanged. `cancelled` is a `return false` without message, `failed`
a `return false` after `QMessageBox::critical` with the given text. -/
def convertLvl (env : OpenEnv) (fullFileName : String) (createNewPath : Bool) : Conversion :=
  if endsWithLvl fullFileName then
    match env.EnumeratePaths fullFileName with
    | Except.error e => Conversion.failed (catchMessage e)
    | Except.ok paths =>
      if !createNewPath then
        match env.SelectedPath paths with
        | none => Conversion.cancelled
        | some selectedPath => exportToTemp env fullFileName selectedPath 0
      else
        match paths with
        | [] => Conversion.failed "Selected LVL appears to contain no paths"
        | first :: _ =>
          match env.getInt with
          | none => Conversion.cancelled
          | some newPathId => exportToTemp env fullFileName first newPathId
  else
    Conversion.proceed fullFileName false 0 none

/-- The loop of lines 317-328: the index of the first tab whose file name
equals the given one, compared case-insensitively and without normalising
slashes. -/
def findOpenTab (tabs : List WindowTab) (fullFileName : String) : Option Nat :=
  tabs.findIdx? fun pTab => compareCaseInsensitiveEq pTab.mJsonFileName fullFileName

/-- The model loading of the second `try` block (lines 333-339); `none` is a
thrown `ModelException`. -/
def loadModel (env : OpenEnv) (fullFileName : String) (createNewPath : Bool) (newPathId : Int) :
    Option LoadedModel :=
  match env.LoadJson fullFileName with
  | none => none
  | some model => if createNewPath then env.CreateAsNewPath model newPathId else some model

/-- The file name given to the new tab (lines 342-350): the generated name for
a converted `.lvl`, the opened file name otherwise. -/
def tabFileName (model : LoadedModel) (fullFileName : String) (isTempfile : Bool)
    (selectedPath : Option Int) : String :=
  if isTempfile then
    model.mGame ++ "_" ++ model.mPathBnd ++ "_" ++ toString (selectedPath.getD 0)
  else
    fullFileName

/-- Result of `onOpenPath`: the returned flag, the window afterwards and the
texts shown with `QMessageBox::critical` during the call. -/
structure OpenResult where
  ret : Bool
  window : EditorMainWindow
  shown : List String
  deriving DecidableEq, Repr

/-- Embedding of `EditorMainWindow::onOpenPath` (lines 137-378). -/
def EditorMainWindow.onOpenPath (env : OpenEnv) (w : EditorMainWindow) (fullFileName : String)
    (createNewPath : Bool) : OpenResult :=
  match convertLvl env fullFileName createNewPath with
  | Conversion.cancelled => { ret := false, window := w, shown := [] }
  | Conversion.failed message => { ret := false, window := w, shown := [message] }
  | Conversion.proceed fileName isTempfile newPathId selectedPath =>
    match findOpenTab w.tabs fileName with
    | some i => { ret := true, window := { w with currentIndex := i }, shown := [] }
    | none =>
      match loadModel env fileName createNewPath newPathId with
      | none => { ret := false, window := w, shown := ["Failed to load json"] }
      | some model =>
        let view : WindowTab :=
          { mJsonFileName := tabFileName model fileName isTempfile selectedPath
            isClean := env.newTabIsClean
            mGame := model.mGame }
        { ret := true
          window :=
            { w with
              tabs := w.tabs ++ [view]
              currentIndex := w.tabs.length
              stackedIndex := 1
              menuActionsEnabled := true }
          shown := [] }

/-- Embedding of `getActiveTab` (lines 496-504): the index and the tab of the
current page, `none` for the null pointer. -/
def getActiveTab (w : EditorMainWindow) : Option (Nat × WindowTab) :=
  if w.currentIndex ≠ -1 then
    match w.tabs[w.currentIndex.toNat]? with
    | some pTab => if 0 ≤ w.currentIndex then some (w.currentIndex.toNat, pTab) else none
    | none => none
  else
    none

/-- What the paste handler did: the window afterwards, the texts shown with
`QMessageBox::critical`, and the indices of the tabs whose `Paste` it called. -/
structure PasteResult where
  window : EditorMainWindow
  shown : List String
  pasteCalls : List Nat

/-- Embedding of `EditorMainWindow::on_actionPaste_triggered` (lines 822-839).
`EditorTab::Paste` is not part of the available sources; its effect on the
tab is the parameter `Paste`. -/
def EditorMainWindow.on_actionPaste_triggered (Paste : ClipBoard → WindowTab → WindowTab)
    (w : EditorMainWindow) : PasteResult :=
  if !w.mClipBoard.isEmpty then
    match getActiveTab w with
    | some (idx, pTab) =>
      if w.mClipBoard.sourceGame ≠ pTab.mGame then
        { window := w
          shown := ["You can't cut/copy paste data between AO and AE"]
          pasteCalls := [] }
      else
        { window := { w with tabs := w.tabs.set idx (Paste w.mClipBoard pTab) }
          shown := []
          pasteCalls := [idx] }
    | none => { window := w, shown := [], pasteCalls := [] }
  else
    { window := w, shown := [], pasteCalls := [] }

/-- The button returned by the message box of `closeEvent`, which offers
`Save`, `Discard` and `Cancel`. -/
inductive StandardButton where
  | Save
  | Discard
  | Cancel
  deriving DecidableEq, Repr

/-- The loop of lines 641-648: `Save()` is called on the tabs in order until
one returns false. The result is whether all returned true, and the tabs
afterwards. `EditorTab::Save` as called here returns a flag; it is taken as
the parameter `Save`. -/
def saveTabs (Save : WindowTab → Bool × WindowTab) : List WindowTab → Bool × List WindowTab
  | [] => (true, [])
  | pTab :: rest =>
    if (Save pTab).1 then
      ((saveTabs Save rest).1, (Save pTab).2 :: (saveTabs Save rest).2)
    else
      (false, (Save pTab).2 :: rest)

/-- Result of `closeEvent`: whether the event was accepted (`pEvent->accept()`)
or ignored (`pEvent->ignore()`), and the window afterwards. -/
structure CloseResult where
  accepted : Bool
  window : EditorMainWindow

/-- The call `m_ui->tabWidget->clear()`: all pages are removed. -/
def EditorMainWindow.clearTabs (w : EditorMainWindow) : EditorMainWindow :=
  { w with tabs := [], currentIndex := -1 }

/-- Embedding of `EditorMainWindow::closeEvent` (lines 606-676); `choice` is
the value of `msgBox.exec()`, read only when the message box is shown. -/
def EditorMainWindow.closeEvent (Save : WindowTab → Bool × WindowTab) (choice : StandardButton)
    (w : EditorMainWindow) : CloseResult :=
  if w.tabs.length > 0 then
    let anyTabsNeedSaving := w.tabs.any fun pTab => !pTab.isClean
    if !anyTabsNeedSaving then
      { accepted := true, window := w.clearTabs }
    else
      match choice with
      | StandardButton.Save =>
        if (saveTabs Save w.tabs).1 then
          { accepted := true, window := ({ w with tabs := (saveTabs Save w.tabs).2 }).clearTabs }
        else
          { accepted := false, window := { w with tabs := (saveTabs Save w.tabs).2 } }
      | StandardButton.Discard => { accepted := true, window := w.clearTabs }
      | StandardButton.Cancel => { accepted := false, window := w }
  else
    { accepted := true, window := w }

/-- What a call of `EditorTab::Save` (editortab.cpp lines 473-485) leaves
behind: the value it returns to its caller (the function is `void`) and the
file it wrote, if any. -/
structure SaveOutcome where
  returned : Unit
  written : Option (String × String)
  deriving DecidableEq, Repr

/-- Embedding of `EditorTab::Save` (editortab.cpp lines 473-485). The directory
`info.path()` of the tab's file name, the text `mModel->ToJson()` and whether
`f.open(QIODevice::WriteOnly)` succeeds for a path are parameters. -/
def EditorTabSave (infoPath : String) (json : String) (canOpen : String → Bool) : SaveOutcome :=
  let fullPath := infoPath ++ "/save_test.json"
  if canOpen fullPath then
    { returned := (), written := some (fullPath, json) }
  else
    { returned := (), written := none }

/-- Specification-side path normalisation: slashes are unified and letter case
is folded. -/
def specNormalizePath (p : String) : List Char :=
  (lowerChars p).map fun c => if c = '\\' then '/' else c

/-- Example environment: no dialog is answered, every json file loads. -/
def exOpenEnv : OpenEnv where
  EnumeratePaths := fun _ => Except.ok [1]
  SelectedPath := fun _ => none
  getInt := none
  tempFileFullPath := "/tmp/Editor_0.json"
  ExportPathBinaryToJson := fun _ _ _ => Except.ok ()
  LoadJson := fun _ => some { mGame := "AE", mPathBnd := "MIPATH.BND" }
  CreateAsNewPath := fun m _ => some m
  newTabIsClean := true

/-- Example window: one clean tab, open for `C:/levels/foo.json`. -/
def exWindow : EditorMainWindow where
  tabs := [{ mJsonFileName := "C:/levels/foo.json", isClean := true, mGame := "AE" }]
  currentIndex := 0
  stackedIndex := 1
  menuActionsEnabled := true
  mClipBoard := { isEmpty := true, sourceGame := "" }

/-- Example environment in which the level API cannot read the `.lvl` file. -/
def exFailingEnv : OpenEnv :=
  { exOpenEnv with
    EnumeratePaths := fun _ =>
      Except.error
        { kind := ReliveApiErrorKind.IOReadException, what := "level.lvl", key := "" } }

/-- Example window whose clipboard holds data copied from the other game. -/
def exPasteWindow : EditorMainWindow :=
  { exWindow with mClipBoard := { isEmpty := false, sourceGame := "AO" } }

/-- Example window with one clean and one modified tab. -/
def exDirtyWindow : EditorMainWindow :=
  { exWindow with
    tabs :=
      [ { mJsonFileName := "C:/levels/foo.json", isClean := true, mGame := "AE" },
        { mJsonFileName := "C:/levels/bar.json", isClean := false, mGame := "AE" } ] }

/-- Example `Save` that fails for every tab and leaves it as it is. -/
def exSaveFails (pTab : WindowTab) : Bool × WindowTab := (false, pTab)

/-! ## Theorems -/

/-! ### Labels of `MoveItemsCommand` -/

theorem ctorText_singleRect (k k2 : Nat) (o n : RectPos) :
    MoveItemsCommand.ctorText (singleRect k o) (singleRect k2 n) =
      some (if rectPosChanged o n ∧ n.rect ≠ o.rect then "Move and resize map object"
            else if rectPosChanged o n then "Move map object"
            else "Resize map object") := by
  unfold MoveItemsCommand.ctorText rectPosChanged
  simp only [singleRect, ItemPositionData.Count, ItemPositionData.FirstLinePos,
    ItemPositionData.FirstRectPos, List.length_singleton, List.length_nil, List.head?_nil,
    List.head?_cons, Option.map_none', Option.map_some', if_true]
  by_cases h1 : o.x = n.x <;> by_cases h2 : o.y = n.y <;> by_cases h3 : n.rect = o.rect <;>
    simp [h1, h2, h3]

theorem ctorText_singleLine (k k2 : Nat) (o n : LinePos) :
    MoveItemsCommand.ctorText (singleLine k o) (singleLine k2 n) =
      some (if linePosChanged o n ∧ o.line ≠ n.line then "Move and resize collision"
            else if linePosChanged o n then "Move collision"
            else "Move collision point") := by
  unfold MoveItemsCommand.ctorText linePosChanged
  simp only [singleLine, ItemPositionData.Count, ItemPositionData.FirstLinePos,
    ItemPositionData.FirstRectPos, List.length_singleton, List.length_nil, List.head?_nil,
    List.head?_cons, Option.map_none', Option.map_some', if_true]
  by_cases h1 : o.x = n.x <;> by_cases h2 : o.y = n.y <;> by_cases h3 : o.line = n.line <;>
    simp [h1, h2, h3]

theorem new_text (o n : ItemPositionData) :
    (MoveItemsCommand.new o n).map MoveItemsCommand.text = MoveItemsCommand.ctorText o n := by
  unfold MoveItemsCommand.new
  cases MoveItemsCommand.ctorText o n <;> rfl

/-- Claim C4. A `MoveItemsCommand` built from old/new position data holding
exactly one map-object rectangle is labelled "Move map object" when the
position changed and the rect did not, "Resize map object" when only the rect
changed, and "Move and resize map object" when both changed. -/
theorem C4_single_map_object_label (k : Nat) (o n : RectPos) :
    (rectPosChanged o n → n.rect = o.rect →
      (MoveItemsCommand.new (singleRect k o) (singleRect k n)).map MoveItemsCommand.text
        = some "Move map object") ∧
    (¬ rectPosChanged o n → n.rect ≠ o.rect →
      (MoveItemsCommand.new (singleRect k o) (singleRect k n)).map MoveItemsCommand.text
        = some "Resize map object") ∧
    (rectPosChanged o n → n.rect ≠ o.rect →
      (MoveItemsCommand.new (singleRect k o) (singleRect k n)).map MoveItemsCommand.text
        = some "Move and resize map object") := by
  rw [new_text, ctorText_singleRect]
  refine ⟨?_, ?_, ?_⟩
  · intro hp hr; simp [hp, hr]
  · intro hp hr; simp [hp]
  · intro hp hr; simp [hp, hr]

/-- Witness for C4: a map object moved from (0,0) to (3,4) with the same rect,
one resized in place, and one moved and resized. -/
theorem C4_single_map_object_label_witness :
    (MoveItemsCommand.new (singleRect 1 ⟨0, 0, ⟨0, 0, 10, 10⟩⟩)
        (singleRect 1 ⟨3, 4, ⟨0, 0, 10, 10⟩⟩)).map MoveItemsCommand.text
      = some "Move map object" ∧
    (MoveItemsCommand.new (singleRect 1 ⟨0, 0, ⟨0, 0, 10, 10⟩⟩)
        (singleRect 1 ⟨0, 0, ⟨0, 0, 20, 10⟩⟩)).map MoveItemsCommand.text
      = some "Resize map object" ∧
    (MoveItemsCommand.new (singleRect 1 ⟨0, 0, ⟨0, 0, 10, 10⟩⟩)
        (singleRect 1 ⟨3, 4, ⟨0, 0, 20, 10⟩⟩)).map MoveItemsCommand.text
      = some "Move and resize map object" :=
  ⟨(C4_single_map_object_label 1 ⟨0, 0, ⟨0, 0, 10, 10⟩⟩ ⟨3, 4, ⟨0, 0, 10, 10⟩⟩).1
      (by decide) (by decide),
   (C4_single_map_object_label 1 ⟨0, 0, ⟨0, 0, 10, 10⟩⟩ ⟨0, 0, ⟨0, 0, 20, 10⟩⟩).2.1
      (by decide) (by decide),
   (C4_single_map_object_label 1 ⟨0, 0, ⟨0, 0, 10, 10⟩⟩ ⟨3, 4, ⟨0, 0, 20, 10⟩⟩).2.2
      (by decide) (by decide)⟩

/-- Claim C5. For a `MoveItemsCommand` affecting a single item the label is a
function of the target kind and of which of position and shape changed: a
collision line gets one of three labels, a map object one of three others,
the six labels are pairwise distinct (so the three of a kind are distinct and
no collision label is a map-object label), and a collision line whose line
changed while its position did not gets the third (resize only) label of its
kind, "Move collision point". -/
theorem C5_single_item_label_classification :
    (∀ (k : Nat) (o n : LinePos),
      (MoveItemsCommand.new (singleLine k o) (singleLine k n)).map MoveItemsCommand.text =
        some (if linePosChanged o n ∧ o.line ≠ n.line then "Move and resize collision"
              else if linePosChanged o n then "Move collision"
              else "Move collision point")) ∧
    (∀ (k : Nat) (o n : RectPos),
      (MoveItemsCommand.new (singleRect k o) (singleRect k n)).map MoveItemsCommand.text =
        some (if rectPosChanged o n ∧ n.rect ≠ o.rect then "Move and resize map object"
              else if rectPosChanged o n then "Move map object"
              else "Resize map object")) ∧
    ["Move and resize collision", "Move collision", "Move collision point",
      "Move and resize map object", "Move map object", "Resize map object"].Nodup ∧
    (∀ (k : Nat) (o n : LinePos), o.line ≠ n.line → ¬ linePosChanged o n →
      (MoveItemsCommand.new (singleLine k o) (singleLine k n)).map MoveItemsCommand.text =
        some "Move collision point") := by
  refine ⟨?_, ?_, by decide, ?_⟩
  · intro k o n; rw [new_text, ctorText_singleLine]
  · intro k o n; rw [new_text, ctorText_singleRect]
  · intro k o n _ hp; rw [new_text, ctorText_singleLine]; simp [hp]

/-- Witness for C5: a collision line whose end point moved while its position
stayed at the origin. -/
theorem C5_single_item_label_classification_witness :
    (MoveItemsCommand.new (singleLine 2 ⟨0, 0, ⟨0, 0, 5, 5⟩⟩)
        (singleLine 2 ⟨0, 0, ⟨0, 0, 9, 5⟩⟩)).map MoveItemsCommand.text
      = some "Move collision point" :=
  C5_single_item_label_classification.2.2.2 2 ⟨0, 0, ⟨0, 0, 5, 5⟩⟩ ⟨0, 0, ⟨0, 0, 9, 5⟩⟩
    (by decide) (by decide)

/-! ### The property inspector -/

theorem AddProperties_eq (m : Model) (props : List ObjectProperty) (items : List Row) :
    AddProperties m items props = items ++ props.flatMap (AddProperty m) := by
  induction props generalizing items with
  | nil => simp [AddProperties]
  | cons p ps ih => simp [AddProperties, ih, List.flatMap_cons, List.append_assoc]

theorem AddProperty_unresolved (m : Model) (p : ObjectProperty)
    (hb : (m.FindType p.mTypeName).mBasicType = none)
    (he : (m.FindType p.mTypeName).mEnum = none) : AddProperty m p = [] := by
  simp [AddProperty, hb, he]

theorem flatMap_AddProperty (m : Model) (props : List ObjectProperty) :
    props.flatMap (AddProperty m) = specPropertyRows m props := by
  induction props with
  | nil => rfl
  | cons p ps ih =>
    rw [List.flatMap_cons, ih]
    unfold specPropertyRows AddProperty typeResolves specRowOf
    cases hv : p.mVisible <;> cases hb : (m.FindType p.mTypeName).mBasicType <;>
      cases he : (m.FindType p.mTypeName).mEnum <;>
      simp [List.filter_cons, hv, hb, he]

/-- Claim C9. In `EditorTab::AddProperties`, a property whose type name resolves
to neither a basic type nor an enum contributes no row, the rows produced for
the other properties are those produced without it, and the call returns its
row list (the function is total: there is no error outcome). -/
theorem C9_unresolved_property_skipped (m : Model) (items : List Row)
    (before after : List ObjectProperty) (p : ObjectProperty)
    (hb : (m.FindType p.mTypeName).mBasicType = none)
    (he : (m.FindType p.mTypeName).mEnum = none) :
    AddProperty m p = [] ∧
    AddProperties m items (before ++ p :: after) = AddProperties m items (before ++ after) ∧
    AddProperties m items (before ++ p :: after) =
      AddProperties m (AddProperties m items before) after := by
  have h0 := AddProperty_unresolved m p hb he
  refine ⟨h0, ?_, ?_⟩
  · simp [AddProperties_eq, List.flatMap_append, List.flatMap_cons, h0]
  · simp [AddProperties_eq, List.flatMap_append, List.flatMap_cons, h0]

/-- Witness for C9: an unresolved property between a basic-type and an enum
property of the example schema. -/
theorem C9_unresolved_property_skipped_witness :
    AddProperty exModel exPropUnknown = [] ∧
    AddProperties exModel [] ([exPropInt] ++ exPropUnknown :: [exPropEnum]) =
      AddProperties exModel [] ([exPropInt] ++ [exPropEnum]) ∧
    AddProperties exModel [] ([exPropInt] ++ exPropUnknown :: [exPropEnum]) =
      AddProperties exModel (AddProperties exModel [] [exPropInt]) [exPropEnum] :=
  C9_unresolved_property_skipped exModel [] [exPropInt] [exPropEnum] exPropUnknown
    (by decide) (by decide)

theorem populateItems_rect (t : EditorTab) (i : Nat) :
    t.populateItems (ItemRef.rect i) =
      Row.stringProperty (kIndent ++ "Name") (t.mapObjectOf i).mName ::
        specPropertyRows t.mModel (t.mapObjectOf i).mProperties := by
  simp [EditorTab.populateItems, AddProperties_eq, flatMap_AddProperty]

theorem populateItems_line (t : EditorTab) (i : Nat) :
    t.populateItems (ItemRef.line i) = specPropertyRows t.mModel (t.collisionOf i).mProperties := by
  simp [EditorTab.populateItems, AddProperties_eq, flatMap_AddProperty]

/-- Claim C10, refuted as stated. For the collision line of the example tab
`PopulatePropertyEditor` builds no identity row (its only row is the
basic-type row of the property `Id`), and for the example map object, which
has three visible properties of which one resolves to no schema entry, it
builds three rows and not one identity row plus three property rows. -/
theorem C10_line_has_no_identity_row :
    (exTab.PopulatePropertyEditor (ItemRef.line 0)).treeWidget =
      [Row.basicTypeProperty "    Id" 7 (some { name := "int" })] ∧
    ((exTab.PopulatePropertyEditor (ItemRef.line 0)).treeWidget.head?.map Row.isString
      = some false) ∧
    ((exTab.mapObjectOf 0).mProperties.filter fun p => p.mVisible).length = 3 ∧
    (exTab.PopulatePropertyEditor (ItemRef.rect 0)).treeWidget.length ≠ 1 + 3 := by
  decide

/-- Claim C10, amended. For a single selected map object
`PopulatePropertyEditor` builds one identity row (`Name`, string-typed) followed
by one row per visible property whose type resolves, in property order, each a
basic-type row when `FindType` reports a basic type and an enum row otherwise;
for a single selected collision line it builds the property rows only, with
no identity row. -/
theorem C10_populate_rows (t : EditorTab) (i : Nat) :
    (t.PopulatePropertyEditor (ItemRef.rect i)).treeWidget =
      Row.stringProperty (kIndent ++ "Name") (t.mapObjectOf i).mName ::
        specPropertyRows t.mModel (t.mapObjectOf i).mProperties ∧
    (t.PopulatePropertyEditor (ItemRef.line i)).treeWidget =
      specPropertyRows t.mModel (t.collisionOf i).mProperties := by
  constructor
  · simp [EditorTab.PopulatePropertyEditor, EditorTab.ClearPropertyEditor, populateItems_rect]
  · simp [EditorTab.PopulatePropertyEditor, EditorTab.ClearPropertyEditor, populateItems_line]

/-! ### `SetSelectionCommand` -/

theorem selectAll_selected (items : List ItemRef) (s : Scene) :
    (selectAll items s).selected = s.selected ∪ items.toFinset := by
  unfold selectAll
  induction items generalizing s with
  | nil => simp
  | cons a l ih =>
    rw [List.foldl_cons, ih]
    ext x
    simp [Scene.setSelected]

theorem selectAll_rects (items : List ItemRef) (s : Scene) :
    (selectAll items s).rects = s.rects := by
  unfold selectAll
  induction items generalizing s with
  | nil => rfl
  | cons a l ih => rw [List.foldl_cons, ih]; rfl

theorem selectAll_lines (items : List ItemRef) (s : Scene) :
    (selectAll items s).lines = s.lines := by
  unfold selectAll
  induction items generalizing s with
  | nil => rfl
  | cons a l ih => rw [List.foldl_cons, ih]; rfl

theorem selectAll_clearSelection (items : List ItemRef) (s : Scene) :
    selectAll items s.clearSelection = withSelection items s := by
  ext1
  · simp [selectAll_selected, Scene.clearSelection, withSelection]
  · simp [selectAll_rects, Scene.clearSelection, withSelection]
  · simp [selectAll_lines, Scene.clearSelection, withSelection]

theorem SyncPropertyEditor_mScene (t : EditorTab) :
    (SetSelectionCommand.SyncPropertyEditor t).mScene = t.mScene := by
  unfold SetSelectionCommand.SyncPropertyEditor
  cases soleItem t.mScene.selectedItems <;> rfl

theorem SyncPropertyEditor_mUndoStack (t : EditorTab) :
    (SetSelectionCommand.SyncPropertyEditor t).mUndoStack = t.mUndoStack := by
  unfold SetSelectionCommand.SyncPropertyEditor
  cases soleItem t.mScene.selectedItems <;> rfl

theorem redoChain_cons_mFirst (c : SetSelectionCommand) (t : EditorTab) (ts : List EditorTab) :
    (redoChain c (t :: ts)).mFirst = false ∧
    (redoChain c (t :: ts)).mNewSelection = c.mNewSelection ∧
    (redoChain c (t :: ts)).mOldSelection = c.mOldSelection := by
  induction ts generalizing c t with
  | nil => simp [redoChain, SetSelectionCommand.redo]
  | cons t2 ts ih =>
    have h := ih (c.redo t).1 t2
    simp only [redoChain] at h ⊢
    simpa [SetSelectionCommand.redo] using h

/-- Claim C6. Whatever the old and new selections of a `SetSelectionCommand`,
the first `redo()` after construction leaves the scene (selected set and
geometry) unchanged and still resyncs the property inspector: the tab after
the call is `SyncPropertyEditor` of the tab before it. Only that call skips
the selection update: every later `redo()` of the same command makes the
selected set the new selection. -/
theorem C6_first_redo_skips_selection (oldSelection newSelection : List ItemRef)
    (t t2 : EditorTab) (ts : List EditorTab) :
    ((SetSelectionCommand.new oldSelection newSelection).redo t).2.mScene = t.mScene ∧
    ((SetSelectionCommand.new oldSelection newSelection).redo t).2
      = SetSelectionCommand.SyncPropertyEditor t ∧
    ((SetSelectionCommand.new oldSelection newSelection).redo t).1.mFirst = false ∧
    ((redoChain (SetSelectionCommand.new oldSelection newSelection) (t :: ts)).redo t2).2.mScene.selected
      = newSelection.toFinset := by
  refine ⟨?_, ?_, ?_, ?_⟩
  · simp [SetSelectionCommand.redo, SetSelectionCommand.new, SyncPropertyEditor_mScene]
  · simp [SetSelectionCommand.redo, SetSelectionCommand.new]
  · simp [SetSelectionCommand.redo]
  · obtain ⟨h1, h2, _⟩ :=
      redoChain_cons_mFirst (SetSelectionCommand.new oldSelection newSelection) t ts
    have h2n : (redoChain (SetSelectionCommand.new oldSelection newSelection) (t :: ts)).mNewSelection
        = newSelection := h2
    generalize redoChain (SetSelectionCommand.new oldSelection newSelection) (t :: ts) = c at h1 h2n
    simp [SetSelectionCommand.redo, h1, h2n, SyncPropertyEditor_mScene, selectAll_clearSelection,
      withSelection]

/-- Claim C7. For every `SetSelectionCommand` and every prior scene selection,
`undo()` makes the selected set exactly the captured old selection, and every
`redo()` other than the first makes it exactly the captured new selection: an
item is selected afterwards if and only if it is in the target list, the
geometry is untouched, and the resulting tab is `SyncPropertyEditor` applied
to the tab with that selection. -/
theorem C7_apply_sets_selection (oldSelection newSelection : List ItemRef)
    (t t1 : EditorTab) (ts : List EditorTab) (x : ItemRef) :
    ((SetSelectionCommand.new oldSelection newSelection).undo t
      = SetSelectionCommand.SyncPropertyEditor
          { t with mScene := withSelection oldSelection t.mScene }) ∧
    ((redoChain (SetSelectionCommand.new oldSelection newSelection) (t1 :: ts)).undo t
      = SetSelectionCommand.SyncPropertyEditor
          { t with mScene := withSelection oldSelection t.mScene }) ∧
    (x ∈ ((SetSelectionCommand.new oldSelection newSelection).undo t).mScene.selected
      ↔ x ∈ oldSelection) ∧
    ((redoChain (SetSelectionCommand.new oldSelection newSelection) (t1 :: ts)).redo t).2
      = SetSelectionCommand.SyncPropertyEditor
          { t with mScene := withSelection newSelection t.mScene } ∧
    (x ∈ ((redoChain (SetSelectionCommand.new oldSelection newSelection) (t1 :: ts)).redo t).2.mScene.selected
      ↔ x ∈ newSelection) := by
  obtain ⟨h1, h2, h3⟩ :=
    redoChain_cons_mFirst (SetSelectionCommand.new oldSelection newSelection) t1 ts
  have h2n : (redoChain (SetSelectionCommand.new oldSelection newSelection) (t1 :: ts)).mNewSelection
      = newSelection := h2
  have h3n : (redoChain (SetSelectionCommand.new oldSelection newSelection) (t1 :: ts)).mOldSelection
      = oldSelection := h3
  generalize redoChain (SetSelectionCommand.new oldSelection newSelection) (t1 :: ts) = c
    at h1 h2n h3n
  refine ⟨?_, ?_, ?_, ?_, ?_⟩
  · simp [SetSelectionCommand.undo, selectAll_clearSelection, SetSelectionCommand.new]
  · simp [SetSelectionCommand.undo, selectAll_clearSelection, h3n]
  · simp [SetSelectionCommand.undo, selectAll_clearSelection, SetSelectionCommand.new,
      SyncPropertyEditor_mScene, withSelection]
  · simp [SetSelectionCommand.redo, h1, h2n, selectAll_clearSelection]
  · simp [SetSelectionCommand.redo, h1, h2n, selectAll_clearSelection,
      SyncPropertyEditor_mScene, withSelection]

/-! ### `MoveItemsCommand` -/

theorem applyEntries_of_not_mem {β : Type} (l : List (Nat × β)) (f : Nat → β) (k : Nat)
    (hk : k ∉ l.map Prod.fst) : applyEntries l f k = f k := by
  unfold applyEntries
  induction l generalizing f with
  | nil => rfl
  | cons e l ih =>
    simp only [List.map_cons, List.mem_cons, not_or] at hk
    rw [List.foldl_cons, ih _ hk.2]
    exact Function.update_noteq hk.1 _ _

theorem applyEntries_of_mem {β : Type} (l : List (Nat × β)) (f g : Nat → β) (k : Nat)
    (hk : k ∈ l.map Prod.fst) : applyEntries l f k = applyEntries l g k := by
  unfold applyEntries
  induction l generalizing f g with
  | nil => simp at hk
  | cons e l ih =>
    simp only [List.foldl_cons]
    by_cases hl : k ∈ l.map Prod.fst
    · exact ih _ _ hl
    · have h1 := applyEntries_of_not_mem l (Function.update f e.1 e.2) k hl
      have h2 := applyEntries_of_not_mem l (Function.update g e.1 e.2) k hl
      unfold applyEntries at h1 h2
      rw [h1, h2]
      simp only [List.map_cons, List.mem_cons] at hk
      rcases hk with hk | hk
      · subst hk; simp
      · exact absurd hk hl

theorem applyEntries_of_mem_nodup {β : Type} (l : List (Nat × β)) (f : Nat → β) (e : Nat × β)
    (he : e ∈ l) (hnd : (l.map Prod.fst).Nodup) : applyEntries l f e.1 = e.2 := by
  unfold applyEntries
  induction l generalizing f with
  | nil => simp at he
  | cons a l ih =>
    simp only [List.map_cons, List.nodup_cons] at hnd
    simp only [List.foldl_cons]
    rcases List.mem_cons.1 he with h | h
    · subst h
      have h1 := applyEntries_of_not_mem l (Function.update f e.1 e.2) e.1 hnd.1
      unfold applyEntries at h1
      rw [h1]; simp
    · exact ih _ h hnd.2

theorem applyEntries_absorb {β : Type} (l1 l2 : List (Nat × β)) (f : Nat → β)
    (h : l2.map Prod.fst ⊆ l1.map Prod.fst) :
    applyEntries l1 (applyEntries l2 f) = applyEntries l1 f := by
  funext k
  by_cases hk : k ∈ l1.map Prod.fst
  · exact applyEntries_of_mem l1 _ _ k hk
  · rw [applyEntries_of_not_mem l1 _ k hk, applyEntries_of_not_mem l1 _ k hk]
    exact applyEntries_of_not_mem l2 f k (fun hc => hk (h hc))

theorem foldl_restoreRect (l : List (Nat × RectPos)) (s : Scene) :
    l.foldl restoreRect s = { s with rects := applyEntries l s.rects } := by
  induction l generalizing s with
  | nil => rfl
  | cons e l ih => rw [List.foldl_cons, ih]; rfl

theorem foldl_restoreLine (l : List (Nat × LinePos)) (s : Scene) :
    l.foldl restoreLine s = { s with lines := applyEntries l s.lines } := by
  induction l generalizing s with
  | nil => rfl
  | cons e l ih => rw [List.foldl_cons, ih]; rfl

theorem Restore_eq (d : ItemPositionData) (s : Scene) :
    d.Restore s =
      { selected := s.selected
        rects := applyEntries d.mRects s.rects
        lines := applyEntries d.mLines s.lines } := by
  unfold ItemPositionData.Restore
  rw [foldl_restoreRect, foldl_restoreLine]

theorem Restore_absorb (a b : ItemPositionData) (s : Scene) (h : a.covers b) :
    a.Restore (b.Restore s) = a.Restore s := by
  rw [Restore_eq, Restore_eq, Restore_eq]
  simp only [applyEntries_absorb _ _ _ h.1, applyEntries_absorb _ _ _ h.2]

theorem covers_refl (a : ItemPositionData) : a.covers a :=
  ⟨fun _ h => h, fun _ h => h⟩

theorem applyEntries_captured {β : Type} (l : List (Nat × β)) (k : Nat)
    (hk : k ∈ l.map Prod.fst) :
    ∃ r, (k, r) ∈ l ∧ ∀ f : Nat → β, applyEntries l f k = r := by
  induction l with
  | nil => simp at hk
  | cons e l ih =>
    by_cases hl : k ∈ l.map Prod.fst
    · obtain ⟨r, hr, hf⟩ := ih hl
      refine ⟨r, List.mem_cons_of_mem _ hr, ?_⟩
      intro f
      have := hf (Function.update f e.1 e.2)
      unfold applyEntries at this ⊢
      rw [List.foldl_cons]
      exact this
    · have hke : k = e.1 := by
        simp only [List.map_cons, List.mem_cons] at hk
        rcases hk with hk | hk
        · exact hk
        · exact absurd hk hl
      refine ⟨e.2, ?_, ?_⟩
      · rw [hke]; exact List.mem_cons_self _ _
      · intro f
        have := applyEntries_of_not_mem l (Function.update f e.1 e.2) k hl
        unfold applyEntries at this ⊢
        rw [List.foldl_cons, this, hke]
        simp

/-- Claim C8. For every `MoveItemsCommand` and every current scene geometry,
`undo()` gives each item captured by the old snapshot the geometry of its
entry in that snapshot, whatever the geometry before the call, and a non-first
`redo()` does the same with the new snapshot; items that are not captured and
the selection are left as they are. Hence undo followed by undo equals one
undo, and, for a command whose snapshots capture the same items (as the
`ItemsMoved` signal delivers them; it is enough that the old snapshot captures
every item of the new one), redo followed by undo equals undo. -/
theorem C8_snapshot_restore (c : MoveItemsCommand) (t : EditorTab) :
    ((∀ k ∈ c.mOldPositions.rectKeys, ∃ r, (k, r) ∈ c.mOldPositions.mRects ∧
        ∀ t2 : EditorTab, (c.undo t2).mScene.rects k = r) ∧
      (∀ k ∈ c.mOldPositions.lineKeys, ∃ r, (k, r) ∈ c.mOldPositions.mLines ∧
        ∀ t2 : EditorTab, (c.undo t2).mScene.lines k = r) ∧
      (∀ k, k ∉ c.mOldPositions.rectKeys → (c.undo t).mScene.rects k = t.mScene.rects k) ∧
      (∀ k, k ∉ c.mOldPositions.lineKeys → (c.undo t).mScene.lines k = t.mScene.lines k) ∧
      (c.undo t).mScene.selected = t.mScene.selected) ∧
    (c.mFirst = false →
      (∀ k ∈ c.mNewPositions.rectKeys, ∃ r, (k, r) ∈ c.mNewPositions.mRects ∧
        ∀ t2 : EditorTab, (c.redo t2).2.mScene.rects k = r) ∧
      (∀ k ∈ c.mNewPositions.lineKeys, ∃ r, (k, r) ∈ c.mNewPositions.mLines ∧
        ∀ t2 : EditorTab, (c.redo t2).2.mScene.lines k = r) ∧
      (∀ k, k ∉ c.mNewPositions.rectKeys →
        (c.redo t).2.mScene.rects k = t.mScene.rects k) ∧
      (∀ k, k ∉ c.mNewPositions.lineKeys →
        (c.redo t).2.mScene.lines k = t.mScene.lines k) ∧
      (c.redo t).2.mScene.selected = t.mScene.selected) ∧
    c.undo (c.undo t) = c.undo t ∧
    (c.mOldPositions.rectKeys = c.mNewPositions.rectKeys →
      c.mOldPositions.lineKeys = c.mNewPositions.lineKeys →
      c.undo (c.redo t).2 = c.undo t) ∧
    (c.mOldPositions.covers c.mNewPositions → c.undo (c.redo t).2 = c.undo t) := by
  have hcov : c.mOldPositions.covers c.mNewPositions → c.undo (c.redo t).2 = c.undo t := by
    intro h
    cases hf : c.mFirst
    · simp [MoveItemsCommand.undo, MoveItemsCommand.redo, hf, Restore_absorb _ _ _ h]
    · simp [MoveItemsCommand.undo, MoveItemsCommand.redo, hf]
  refine ⟨⟨?_, ?_, ?_, ?_, ?_⟩, ?_, ?_, ?_, hcov⟩
  · intro k hk
    obtain ⟨r, hr, hf⟩ := applyEntries_captured c.mOldPositions.mRects k hk
    refine ⟨r, hr, fun t2 => ?_⟩
    simp only [MoveItemsCommand.undo, Restore_eq]
    exact hf _
  · intro k hk
    obtain ⟨r, hr, hf⟩ := applyEntries_captured c.mOldPositions.mLines k hk
    refine ⟨r, hr, fun t2 => ?_⟩
    simp only [MoveItemsCommand.undo, Restore_eq]
    exact hf _
  · intro k hk
    simp only [MoveItemsCommand.undo, Restore_eq]
    exact applyEntries_of_not_mem _ _ k hk
  · intro k hk
    simp only [MoveItemsCommand.undo, Restore_eq]
    exact applyEntries_of_not_mem _ _ k hk
  · simp only [MoveItemsCommand.undo, Restore_eq]
  · intro hfirst
    refine ⟨?_, ?_, ?_, ?_, ?_⟩
    · intro k hk
      obtain ⟨r, hr, hf⟩ := applyEntries_captured c.mNewPositions.mRects k hk
      refine ⟨r, hr, fun t2 => ?_⟩
      simp only [MoveItemsCommand.redo, hfirst, Restore_eq]
      exact hf _
    · intro k hk
      obtain ⟨r, hr, hf⟩ := applyEntries_captured c.mNewPositions.mLines k hk
      refine ⟨r, hr, fun t2 => ?_⟩
      simp only [MoveItemsCommand.redo, hfirst, Restore_eq]
      exact hf _
    · intro k hk
      simp only [MoveItemsCommand.redo, hfirst, Restore_eq]
      exact applyEntries_of_not_mem _ _ k hk
    · intro k hk
      simp only [MoveItemsCommand.redo, hfirst, Restore_eq]
      exact applyEntries_of_not_mem _ _ k hk
    · simp only [MoveItemsCommand.redo, hfirst, Restore_eq]
      rfl
  · simp only [MoveItemsCommand.undo, Restore_absorb _ _ _ (covers_refl _)]
  · intro hr hl
    apply hcov
    constructor
    · intro x hx; rw [hr]; exact hx
    · intro x hx; rw [hl]; exact hx

/-- Witness for C8: the command that moved rect item 1 from (0,0) to (5,5),
applied to the example tab. -/
theorem C8_snapshot_restore_witness :
    (exMoveCmdSame.undo exTab).mScene.rects 1 = ⟨0, 0, ⟨0, 0, 10, 10⟩⟩ ∧
    (exMoveCmdSame.redo exTab).2.mScene.rects 1 = ⟨5, 5, ⟨0, 0, 10, 10⟩⟩ ∧
    (exMoveCmdSame.undo exTab).mScene.rects 2 = exTab.mScene.rects 2 ∧
    (exMoveCmdSame.redo exTab).2.mScene.rects 2 = exTab.mScene.rects 2 ∧
    exMoveCmdSame.undo (exMoveCmdSame.redo exTab).2 = exMoveCmdSame.undo exTab := by
  obtain ⟨r1, hr1, h1⟩ := (C8_snapshot_restore exMoveCmdSame exTab).1.1 1 (by decide)
  obtain ⟨r2, hr2, h2⟩ := ((C8_snapshot_restore exMoveCmdSame exTab).2.1 rfl).1 1 (by decide)
  have e1 : r1 = ⟨0, 0, ⟨0, 0, 10, 10⟩⟩ := by
    simpa [exMoveCmdSame, singleRect] using hr1
  have e2 : r2 = ⟨5, 5, ⟨0, 0, 10, 10⟩⟩ := by
    simpa [exMoveCmdSame, singleRect] using hr2
  exact ⟨by rw [h1 exTab, e1], by rw [h2 exTab, e2],
    (C8_snapshot_restore exMoveCmdSame exTab).1.2.2.1 2 (by decide),
    ((C8_snapshot_restore exMoveCmdSame exTab).2.1 rfl).2.2.1 2 (by decide),
    (C8_snapshot_restore exMoveCmdSame exTab).2.2.2.1 rfl rfl⟩

/-! ### Commands on the tab -/

theorem Command.redo_fst (c : Command) (t : EditorTab) : (c.redo t).1 = c.done := by
  cases c <;> rfl

theorem Command.redo_mUndoStack (c : Command) (t : EditorTab) :
    (c.redo t).2.mUndoStack = t.mUndoStack := by
  cases c with
  | setSelection c =>
    simp only [Command.redo, SetSelectionCommand.redo, SyncPropertyEditor_mUndoStack]
    split <;> rfl
  | moveItems c =>
    simp only [Command.redo, MoveItemsCommand.redo]
    split <;> rfl

theorem Command.redo_mScene (c : Command) (t : EditorTab) :
    (c.redo t).2.mScene = if c.mFirst then t.mScene else c.newScene t.mScene := by
  cases c with
  | setSelection c =>
    simp only [Command.redo, SetSelectionCommand.redo, SyncPropertyEditor_mScene,
      Command.mFirst, Command.newScene]
    cases c.mFirst <;> simp [selectAll_clearSelection]
  | moveItems c =>
    simp only [Command.redo, MoveItemsCommand.redo, Command.mFirst, Command.newScene]
    cases c.mFirst <;> simp

theorem Command.undo_mUndoStack (c : Command) (t : EditorTab) :
    (c.undo t).mUndoStack = t.mUndoStack := by
  cases c with
  | setSelection c => simp [Command.undo, SetSelectionCommand.undo, SyncPropertyEditor_mUndoStack]
  | moveItems c => rfl

theorem Command.undo_mScene (c : Command) (t : EditorTab) :
    (c.undo t).mScene = c.oldScene t.mScene := by
  cases c with
  | setSelection c =>
    simp [Command.undo, SetSelectionCommand.undo, SyncPropertyEditor_mScene,
      selectAll_clearSelection, Command.oldScene]
  | moveItems c => rfl

theorem Command.done_mFirst (c : Command) : c.done.mFirst = false := by
  cases c <;> rfl

theorem Command.done_of_mFirst (c : Command) (h : c.mFirst = false) : c.done = c := by
  cases c with
  | setSelection c => cases c; simp_all [Command.done, Command.mFirst]
  | moveItems c => cases c; simp_all [Command.done, Command.mFirst]

theorem Command.done_oldScene (c : Command) : c.done.oldScene = c.oldScene := by
  cases c <;> rfl

theorem Command.done_newScene (c : Command) : c.done.newScene = c.newScene := by
  cases c <;> rfl

theorem Command.newScene_idem (c : Command) (s : Scene) :
    c.newScene (c.newScene s) = c.newScene s := by
  cases c with
  | setSelection c => rfl
  | moveItems c => exact Restore_absorb _ _ _ (covers_refl _)

/-! ### The undo stack -/

theorem getElem?_length_append_cons {α : Type} (pre post : List α) (c : α) :
    (pre ++ c :: post)[pre.length]? = some c := by
  rw [List.getElem?_append_right (Nat.le_refl _)]
  simp

theorem Undo_step (t : EditorTab) (pre post : List Command) (c : Command)
    (hcl : t.mUndoStack.command_list = pre ++ c :: post)
    (hidx : t.mUndoStack.index = pre.length + 1) :
    t.Undo.mUndoStack = { t.mUndoStack with index := pre.length } ∧
    t.Undo.mScene = c.oldScene t.mScene := by
  have hget : t.mUndoStack.command_list[t.mUndoStack.index - 1]? = some c := by
    rw [hcl, hidx, Nat.add_sub_cancel]; exact getElem?_length_append_cons pre post c
  unfold EditorTab.Undo EditorTab.stackUndo
  simp only [hidx, Nat.succ_ne_zero, if_false]
  simp only [hidx] at hget
  rw [hget]
  simp [Command.undo_mScene]

theorem Undo_of_index_zero (t : EditorTab) (h : t.mUndoStack.index = 0) : t.Undo = t := by
  unfold EditorTab.Undo EditorTab.stackUndo; simp [h]

theorem Undo_iterate_of_index_zero (t : EditorTab) (h : t.mUndoStack.index = 0) (n : Nat) :
    EditorTab.Undo^[n] t = t := by
  induction n with
  | zero => rfl
  | succ n ih => rw [Function.iterate_succ_apply, Undo_of_index_zero t h, ih]

theorem Undo_iterate_top (cs : List Command) :
    ∀ (t : EditorTab) (pre post : List Command),
      t.mUndoStack.command_list = pre ++ cs ++ post →
      t.mUndoStack.index = pre.length + cs.length →
      (EditorTab.Undo^[cs.length] t).mUndoStack = { t.mUndoStack with index := pre.length } ∧
      (EditorTab.Undo^[cs.length] t).mScene = cs.foldr Command.oldScene t.mScene := by
  induction cs using List.reverseRecOn with
  | nil =>
    intro t pre post _ hidx
    simp only [List.length_nil, Nat.add_zero] at hidx
    simp [← hidx]
  | append_singleton cs c ih =>
    intro t pre post hcl hidx
    have hcl2 : t.mUndoStack.command_list = (pre ++ cs) ++ c :: post := by
      rw [hcl]; simp
    have hidx2 : t.mUndoStack.index = (pre ++ cs).length + 1 := by
      rw [hidx]; simp; omega
    obtain ⟨hs, hsc⟩ := Undo_step t (pre ++ cs) post c hcl2 hidx2
    have hcl3 : t.Undo.mUndoStack.command_list = pre ++ cs ++ (c :: post) := by
      rw [hs]; exact hcl2
    have hidx3 : t.Undo.mUndoStack.index = pre.length + cs.length := by
      rw [hs]; simp
    obtain ⟨h1, h2⟩ := ih t.Undo pre (c :: post) hcl3 hidx3
    rw [List.length_append, List.length_singleton, Function.iterate_succ_apply]
    refine ⟨?_, ?_⟩
    · rw [h1, hs]
    · rw [h2, hsc, List.foldr_append]; rfl

theorem Redo_step (t : EditorTab) (pre post : List Command) (c : Command)
    (hcl : t.mUndoStack.command_list = pre ++ c :: post)
    (hidx : t.mUndoStack.index = pre.length) (hc : c.mFirst = false) :
    t.Redo.mUndoStack = { t.mUndoStack with index := pre.length + 1 } ∧
    t.Redo.mScene = c.newScene t.mScene := by
  have hget : t.mUndoStack.command_list[t.mUndoStack.index]? = some c := by
    rw [hcl, hidx]; exact getElem?_length_append_cons pre post c
  have hne : t.mUndoStack.index ≠ t.mUndoStack.command_list.length := by
    rw [hcl, hidx]; simp
  unfold EditorTab.Redo EditorTab.stackRedo
  simp only [hne, if_false]
  rw [hget]
  have hset : t.mUndoStack.command_list.set t.mUndoStack.index c = t.mUndoStack.command_list := by
    rw [hcl, hidx]; simp
  simp only [Command.redo_fst, Command.done_of_mFirst c hc, hset, Command.redo_mScene, hc]
  simp [hidx]

theorem Redo_of_index_end (t : EditorTab)
    (h : t.mUndoStack.index = t.mUndoStack.command_list.length) : t.Redo = t := by
  unfold EditorTab.Redo EditorTab.stackRedo; simp [h]

theorem Redo_iterate_top (cs : List Command) :
    ∀ (t : EditorTab) (pre post : List Command),
      t.mUndoStack.command_list = pre ++ cs ++ post →
      t.mUndoStack.index = pre.length →
      (∀ c ∈ cs, c.mFirst = false) →
      (EditorTab.Redo^[cs.length] t).mUndoStack =
        { t.mUndoStack with index := pre.length + cs.length } ∧
      (EditorTab.Redo^[cs.length] t).mScene = cs.foldl (fun s c => c.newScene s) t.mScene := by
  induction cs with
  | nil =>
    intro t pre post _ hidx _
    simp [← hidx]
  | cons c cs ih =>
    intro t pre post hcl hidx hf
    have hcl2 : t.mUndoStack.command_list = pre ++ c :: (cs ++ post) := by
      rw [hcl]; simp
    obtain ⟨hs, hsc⟩ := Redo_step t pre (cs ++ post) c hcl2 hidx (hf c (List.mem_cons_self _ _))
    have hcl3 : t.Redo.mUndoStack.command_list = (pre ++ [c]) ++ cs ++ post := by
      rw [hs]; simp [hcl2]
    have hidx3 : t.Redo.mUndoStack.index = (pre ++ [c]).length := by
      rw [hs]; simp
    obtain ⟨h1, h2⟩ := ih t.Redo (pre ++ [c]) post hcl3 hidx3
      (fun x hx => hf x (List.mem_cons_of_mem _ hx))
    rw [List.length_cons, Function.iterate_succ_apply]
    refine ⟨?_, ?_⟩
    · rw [h1, hs]; simp; omega
    · rw [h2, hsc, List.foldl_cons]

theorem Undo_iterate_le (t : EditorTab) (k : Nat)
    (hwf : t.mUndoStack.index ≤ t.mUndoStack.command_list.length)
    (hk : k ≤ t.mUndoStack.index) :
    (EditorTab.Undo^[k] t).mUndoStack = { t.mUndoStack with index := t.mUndoStack.index - k } ∧
    (EditorTab.Undo^[k] t).mScene =
      ((t.mUndoStack.command_list.take t.mUndoStack.index).drop (t.mUndoStack.index - k)).foldr
        Command.oldScene t.mScene := by
  set cl := t.mUndoStack.command_list with hcl
  set i := t.mUndoStack.index with hi
  have hlen : ((cl.take i).drop (i - k)).length = k := by
    rw [List.length_drop, List.length_take]; omega
  have hpre : ((cl.take i).take (i - k)).length = i - k := by
    rw [List.length_take, List.length_take]; omega
  have hsplit : cl = (cl.take i).take (i - k) ++ (cl.take i).drop (i - k) ++ cl.drop i := by
    rw [List.take_append_drop, List.take_append_drop]
  have hidx : i = ((cl.take i).take (i - k)).length + ((cl.take i).drop (i - k)).length := by
    rw [hlen, hpre]; omega
  have h := Undo_iterate_top ((cl.take i).drop (i - k)) t _ _ hsplit hidx
  rw [hlen, hpre] at h
  exact h

theorem Undo_iterate_ge (t : EditorTab) (k : Nat)
    (hwf : t.mUndoStack.index ≤ t.mUndoStack.command_list.length)
    (hk : t.mUndoStack.index ≤ k) :
    EditorTab.Undo^[k] t = EditorTab.Undo^[t.mUndoStack.index] t := by
  obtain ⟨h1, _⟩ := Undo_iterate_le t t.mUndoStack.index hwf (Nat.le_refl _)
  have h0 : (EditorTab.Undo^[t.mUndoStack.index] t).mUndoStack.index = 0 := by
    rw [h1]; simp
  have hk2 : EditorTab.Undo^[k] t
      = EditorTab.Undo^[(k - t.mUndoStack.index) + t.mUndoStack.index] t := by
    rw [Nat.sub_add_cancel hk]
  rw [hk2, Function.iterate_add_apply, Undo_iterate_of_index_zero _ h0]

theorem pushed_undo_limit (st : QUndoStack) (c : Command) :
    (st.pushed c).undo_limit = st.undo_limit := rfl

theorem pushed_of_split (st : QUndoStack) (c : Command) (pre acc post : List Command)
    (hcl : st.command_list = pre ++ acc ++ post) (hidx : st.index = pre.length + acc.length)
    (hl : st.undo_limit = 0 ∨ acc.length + 1 ≤ st.undo_limit) :
    (st.pushed c).command_list =
        pre.drop (if st.undo_limit = 0 then 0 else st.index + 1 - st.undo_limit)
          ++ (acc ++ [c]) ∧
    (st.pushed c).index =
      (pre.drop (if st.undo_limit = 0 then 0 else st.index + 1 - st.undo_limit)).length
        + (acc ++ [c]).length := by
  have htake : st.command_list.take st.index = pre ++ acc := by
    rw [hcl, hidx]
    exact List.take_left' (by simp)
  have hdle : (if st.undo_limit = 0 then 0 else st.index + 1 - st.undo_limit) ≤ pre.length := by
    split
    · exact Nat.zero_le _
    · rcases hl with hl | hl
      · contradiction
      · omega
  unfold QUndoStack.pushed
  simp only [htake, List.length_append, List.length_singleton, ← hidx]
  constructor
  · rw [List.append_assoc, List.drop_append_of_le_length hdle]
  · rw [List.length_drop]
    omega

theorem pushes_of_split (cs : List Command) :
    ∀ (st : QUndoStack) (pre acc post : List Command),
      st.command_list = pre ++ acc ++ post →
      st.index = pre.length + acc.length →
      (st.undo_limit = 0 ∨ acc.length + cs.length ≤ st.undo_limit) →
      ∃ pre2 post2,
        (cs.foldl QUndoStack.pushed st).command_list = pre2 ++ (acc ++ cs) ++ post2 ∧
        (cs.foldl QUndoStack.pushed st).index = pre2.length + (acc ++ cs).length := by
  induction cs with
  | nil =>
    intro st pre acc post hcl hidx _
    exact ⟨pre, post, by simpa using hcl, by simpa using hidx⟩
  | cons c cs ih =>
    intro st pre acc post hcl hidx hl
    have hl1 : st.undo_limit = 0 ∨ acc.length + 1 ≤ st.undo_limit := by
      rcases hl with hl | hl
      · exact Or.inl hl
      · right; simp only [List.length_cons] at hl; omega
    obtain ⟨h1, h2⟩ := pushed_of_split st c pre acc post hcl hidx hl1
    have hl2 : (st.pushed c).undo_limit = 0 ∨
        (acc ++ [c]).length + cs.length ≤ (st.pushed c).undo_limit := by
      rw [pushed_undo_limit]
      rcases hl with hl | hl
      · exact Or.inl hl
      · right; simp only [List.length_cons] at hl; simp; omega
    obtain ⟨pre2, post2, h3, h4⟩ := ih (st.pushed c) _ (acc ++ [c]) []
      (by rw [h1]; simp) h2 hl2
    refine ⟨pre2, post2, ?_, ?_⟩
    · rw [List.foldl_cons, h3]; simp
    · rw [List.foldl_cons, h4]; simp

theorem pushes_of_full (cs : List Command) :
    ∀ (st : QUndoStack),
      st.index = st.command_list.length →
      st.undo_limit ≠ 0 →
      st.command_list.length ≤ st.undo_limit →
      (cs.foldl QUndoStack.pushed st).command_list =
          (st.command_list ++ cs).drop (st.command_list.length + cs.length - st.undo_limit) ∧
      (cs.foldl QUndoStack.pushed st).index =
          (cs.foldl QUndoStack.pushed st).command_list.length ∧
      (cs.foldl QUndoStack.pushed st).undo_limit = st.undo_limit := by
  induction cs with
  | nil =>
    intro st hfull _ hle
    simp [hfull, Nat.sub_eq_zero_of_le hle]
  | cons c cs ih =>
    intro st hfull hL hle
    have hcl1 : (st.pushed c).command_list =
        (st.command_list ++ [c]).drop (st.command_list.length + 1 - st.undo_limit) := by
      unfold QUndoStack.pushed
      simp [hfull, hL]
    have hidx1 : (st.pushed c).index = (st.pushed c).command_list.length := by
      rw [hcl1]
      unfold QUndoStack.pushed
      simp [hfull, hL]
      omega
    have hlen1 : (st.pushed c).command_list.length ≤ (st.pushed c).undo_limit := by
      rw [hcl1, pushed_undo_limit]; simp; omega
    obtain ⟨h1, h2, h3⟩ := ih (st.pushed c) hidx1 (by rw [pushed_undo_limit]; exact hL) hlen1
    refine ⟨?_, ?_, ?_⟩
    · have hd : st.command_list.length + 1 - st.undo_limit ≤ (st.command_list ++ [c]).length := by
        simp
      have hx : (st.command_list ++ [c]).drop (st.command_list.length + 1 - st.undo_limit) ++ cs
          = (st.command_list ++ c :: cs).drop (st.command_list.length + 1 - st.undo_limit) := by
        rw [← List.drop_append_of_le_length hd]; simp
      have hlen : ((st.command_list ++ [c]).drop
          (st.command_list.length + 1 - st.undo_limit)).length
            = st.command_list.length + 1 - (st.command_list.length + 1 - st.undo_limit) := by
        simp
      rw [List.foldl_cons, h1, pushed_undo_limit, hcl1, hx, hlen, List.drop_drop]
      congr 1
      simp only [List.length_cons]
      omega
    · rw [List.foldl_cons]; exact h2
    · rw [List.foldl_cons, h3, pushed_undo_limit]

/-! ### Gestures -/

theorem gesture_mUndoStack (t : EditorTab) (g : Scene × Command) :
    (t.gesture g).mUndoStack = t.mUndoStack.pushed g.2.done := by
  unfold EditorTab.gesture EditorTab.push
  simp [Command.redo_fst, Command.redo_mUndoStack]

theorem push_mUndoStack (t : EditorTab) (c : Command) :
    (t.push c).mUndoStack = t.mUndoStack.pushed c.done := by
  unfold EditorTab.push
  simp [Command.redo_fst, Command.redo_mUndoStack]

theorem gesture_mScene (t : EditorTab) (g : Scene × Command) :
    (t.gesture g).mScene = if g.2.mFirst then g.1 else g.2.newScene g.1 := by
  unfold EditorTab.gesture EditorTab.push
  simp [Command.redo_mScene]

theorem gestures_mUndoStack (gs : List (Scene × Command)) (t : EditorTab) :
    (gs.foldl EditorTab.gesture t).mUndoStack =
      (gs.map fun g => g.2.done).foldl QUndoStack.pushed t.mUndoStack := by
  induction gs generalizing t with
  | nil => rfl
  | cons g gs ih => rw [List.foldl_cons, ih, gesture_mUndoStack]; rfl

theorem gestures_mScene (gs : List (Scene × Command)) (t : EditorTab)
    (h : Records t.mScene gs) : (gs.foldl EditorTab.gesture t).mScene = finalScene t.mScene gs := by
  induction gs generalizing t with
  | nil => rfl
  | cons g gs ih =>
    obtain ⟨hn, _, hr⟩ := h
    have hg : (t.gesture g).mScene = g.1 := by
      rw [gesture_mScene]
      split
      · rfl
      · rw [← hn, Command.newScene_idem]
    rw [List.foldl_cons, ih (t.gesture g) (by rw [hg]; exact hr), hg]
    rfl

theorem Records_foldr (gs : List (Scene × Command)) (s : Scene) (h : Records s gs) :
    (gs.map fun g => g.2.done).foldr Command.oldScene (finalScene s gs) = s := by
  induction gs generalizing s with
  | nil => rfl
  | cons g gs ih =>
    obtain ⟨_, ho, hr⟩ := h
    simp only [List.map_cons, List.foldr_cons, finalScene]
    rw [ih g.1 hr, Command.done_oldScene, ho]

theorem Records_foldl (gs : List (Scene × Command)) (s : Scene) (h : Records s gs) :
    (gs.map fun g => g.2.done).foldl (fun s c => c.newScene s) s = finalScene s gs := by
  induction gs generalizing s with
  | nil => rfl
  | cons g gs ih =>
    obtain ⟨hn, _, hr⟩ := h
    simp only [List.map_cons, List.foldl_cons, finalScene]
    rw [Command.done_newScene, hn, ih g.1 hr]

/-! ### Undo/redo round trip, pruning and the history bound -/

theorem exGestures_records : Records exTab.mScene exGestures := by
  refine ⟨rfl, ?_, rfl, ?_, trivial⟩
  · simp only [Command.oldScene, SetSelectionCommand.new, withSelection]
    rfl
  · simp only [Command.oldScene, Restore_eq, withSelection, singleRect, applyEntries,
      List.foldl_cons, List.foldl_nil]
    ext1
    · rfl
    · funext k
      by_cases hk : k = 1 <;> simp [hk, exScene, Function.update]
    · rfl

/-- Claim C1. For every tab state (with the undo limit 100 set by the
constructor) and every sequence of N <= 100 commands pushed onto the undo
stack by the handlers, one per gesture of the scene, each carrying the data
its signal delivers (its new data is the state the gesture left in the scene,
its old data the state before the gesture), N calls of `Undo` followed by N
calls of `Redo` restore the scene (selection and item geometry) and the undo
stack to exactly what they were before the Undo/Redo sequence started; in
between, the N calls of `Undo` give back the scene from before the
gestures. -/
theorem C1_undo_redo_roundtrip (t : EditorTab) (gs : List (Scene × Command))
    (hwf : t.mUndoStack.index ≤ t.mUndoStack.command_list.length)
    (hlim : t.mUndoStack.undo_limit = EditorTab.kUndoLimit)
    (hN : gs.length ≤ 100)
    (hrec : Records t.mScene gs) :
    (EditorTab.Undo^[gs.length] (gs.foldl EditorTab.gesture t)).mScene = t.mScene ∧
    (EditorTab.Redo^[gs.length] (EditorTab.Undo^[gs.length]
      (gs.foldl EditorTab.gesture t))).mScene = (gs.foldl EditorTab.gesture t).mScene ∧
    (EditorTab.Redo^[gs.length] (EditorTab.Undo^[gs.length]
      (gs.foldl EditorTab.gesture t))).mUndoStack = (gs.foldl EditorTab.gesture t).mUndoStack := by
  have hcslen : (gs.map fun g => g.2.done).length = gs.length := List.length_map _ _
  obtain ⟨pre, post, hcl, hidx⟩ :=
    pushes_of_split (gs.map fun g => g.2.done) t.mUndoStack
      (t.mUndoStack.command_list.take t.mUndoStack.index) []
      (t.mUndoStack.command_list.drop t.mUndoStack.index)
      (by simp) (by simp; omega)
      (Or.inr (by rw [hlim, hcslen]; simpa [EditorTab.kUndoLimit] using hN))
  rw [← gestures_mUndoStack, List.nil_append] at hcl hidx
  obtain ⟨hu1, hu2⟩ := Undo_iterate_top _ (gs.foldl EditorTab.gesture t) pre post hcl hidx
  rw [hcslen] at hu1 hu2
  rw [gestures_mScene gs t hrec, Records_foldr gs t.mScene hrec] at hu2
  have hdone : ∀ c ∈ (gs.map fun g => g.2.done), c.mFirst = false := by
    intro c hc
    obtain ⟨g, _, rfl⟩ := List.mem_map.1 hc
    exact Command.done_mFirst _
  obtain ⟨hr1, hr2⟩ := Redo_iterate_top _ (EditorTab.Undo^[gs.length] (gs.foldl EditorTab.gesture t))
    pre post (by rw [hu1]; exact hcl) (by rw [hu1]) hdone
  rw [hcslen] at hr1 hr2
  refine ⟨hu2, ?_, ?_⟩
  · rw [hr2, hu2, Records_foldl gs t.mScene hrec, gestures_mScene gs t hrec]
  · rw [hr1, hu1]
    simp only [hcslen] at hidx
    rw [← hidx]

/-- Witness for C1: the example tab after selecting rect item 1 and moving
it. -/
theorem C1_undo_redo_roundtrip_witness :
    (EditorTab.Undo^[exGestures.length] (exGestures.foldl EditorTab.gesture exTab)).mScene
      = exTab.mScene ∧
    (EditorTab.Redo^[exGestures.length] (EditorTab.Undo^[exGestures.length]
      (exGestures.foldl EditorTab.gesture exTab))).mScene
      = (exGestures.foldl EditorTab.gesture exTab).mScene ∧
    (EditorTab.Redo^[exGestures.length] (EditorTab.Undo^[exGestures.length]
      (exGestures.foldl EditorTab.gesture exTab))).mUndoStack
      = (exGestures.foldl EditorTab.gesture exTab).mUndoStack :=
  C1_undo_redo_roundtrip exTab exGestures (by decide) rfl (by decide) exGestures_records

theorem prunedAfter_push (t : EditorTab) (K : Nat) (cmd : Command)
    (hwf : t.mUndoStack.index ≤ t.mUndoStack.command_list.length)
    (hK : K ≤ t.mUndoStack.index) :
    PrunedAfter t K cmd ((EditorTab.Undo^[K] t).push cmd) := by
  obtain ⟨hu, _⟩ := Undo_iterate_le t K hwf hK
  have hl : (EditorTab.Undo^[K] t).mUndoStack.undo_limit = 0 ∨
      ([] : List Command).length + 1 ≤ (EditorTab.Undo^[K] t).mUndoStack.undo_limit := by
    rw [hu]
    by_cases h0 : t.mUndoStack.undo_limit = 0
    · exact Or.inl h0
    · right; simp; omega
  obtain ⟨h1, h2⟩ := pushed_of_split (EditorTab.Undo^[K] t).mUndoStack cmd.done
    (t.mUndoStack.command_list.take (t.mUndoStack.index - K)) []
    (t.mUndoStack.command_list.drop (t.mUndoStack.index - K))
    (by rw [hu]; simp) (by rw [hu]; simp; omega) hl
  have hcl : ((EditorTab.Undo^[K] t).push cmd).mUndoStack.command_list =
      (t.mUndoStack.command_list.take (t.mUndoStack.index - K)).drop (prunedDrop t K)
        ++ [cmd.done] := by
    rw [push_mUndoStack, h1, hu]; rfl
  have hidx : ((EditorTab.Undo^[K] t).push cmd).mUndoStack.index =
      ((EditorTab.Undo^[K] t).push cmd).mUndoStack.command_list.length := by
    rw [hcl, push_mUndoStack, h2, hu]; simp [prunedDrop]
  exact ⟨hcl, hidx, Redo_of_index_end _ hidx⟩

/-- Claim C2. For every undo stack holding at least K >= 1 done commands, after
K calls of `Undo` followed by the push of a new command through the
`SelectionChanged` or the `ItemsMoved` handler, the stack holds only commands
of the slots below the new cursor followed by the new command (the K undone
commands are gone), the cursor is at the end, and a following `Redo` leaves
the whole tab (stack, selection, geometry) unchanged. -/
theorem C2_push_after_undo_prunes (t : EditorTab) (K : Nat)
    (hwf : t.mUndoStack.index ≤ t.mUndoStack.command_list.length)
    (hK1 : 1 ≤ K) (hK : K ≤ t.mUndoStack.index) :
    (∀ oldSelection newSelection,
      PrunedAfter t K (Command.setSelection (SetSelectionCommand.new oldSelection newSelection))
        ((EditorTab.Undo^[K] t).onSelectionChanged oldSelection newSelection)) ∧
    (∀ oldPositions newPositions c, MoveItemsCommand.new oldPositions newPositions = some c →
      (EditorTab.Undo^[K] t).onItemsMoved oldPositions newPositions
        = some ((EditorTab.Undo^[K] t).push (Command.moveItems c)) ∧
      PrunedAfter t K (Command.moveItems c) ((EditorTab.Undo^[K] t).push (Command.moveItems c))) := by
  have _ := hK1
  refine ⟨?_, ?_⟩
  · intro o n
    exact prunedAfter_push t K _ hwf hK
  · intro o n c hc
    refine ⟨?_, prunedAfter_push t K _ hwf hK⟩
    simp [EditorTab.onItemsMoved, hc]

/-- Witness for C2: the example tab after one selection gesture, one `Undo`,
and a new selection gesture. -/
theorem C2_push_after_undo_prunes_witness :
    PrunedAfter (exTab.onSelectionChanged [] [ItemRef.rect 1]) 1
      (Command.setSelection (SetSelectionCommand.new [] [ItemRef.rect 2]))
      ((EditorTab.Undo^[1] (exTab.onSelectionChanged [] [ItemRef.rect 1])).onSelectionChanged
        [] [ItemRef.rect 2]) :=
  (C2_push_after_undo_prunes (exTab.onSelectionChanged [] [ItemRef.rect 1]) 1
    (by decide) (by decide) (by decide)).1 [] [ItemRef.rect 2]

/-- Claim C3. The undo history of a tab is bounded at 100: starting from the
empty stack of a new tab, after `100 + 5` pushes the stack holds exactly 100
undoable commands, namely the last 100 pushed; the earliest 5 are no longer
in it, so any number `k` of `Undo` calls reverts only retained commands (the
last `min k 100` of them) and calls beyond the 100th change nothing. -/
theorem C3_history_bounded (t : EditorTab) (gs : List (Scene × Command))
    (hempty : t.mUndoStack = EditorTab.initialUndoStack)
    (hlen : gs.length = EditorTab.kUndoLimit + 5) :
    (gs.foldl EditorTab.gesture t).mUndoStack.index = EditorTab.kUndoLimit ∧
    (gs.foldl EditorTab.gesture t).mUndoStack.command_list
      = (gs.drop 5).map (fun g => g.2.done) ∧
    (∀ k, (EditorTab.Undo^[k] (gs.foldl EditorTab.gesture t)).mUndoStack.index
      = EditorTab.kUndoLimit - k) ∧
    (∀ k, (EditorTab.Undo^[k] (gs.foldl EditorTab.gesture t)).mScene
      = (((gs.drop 5).map (fun g => g.2.done)).drop (EditorTab.kUndoLimit - k)).foldr
          Command.oldScene (gs.foldl EditorTab.gesture t).mScene) ∧
    (∀ k, EditorTab.kUndoLimit ≤ k →
      EditorTab.Undo^[k] (gs.foldl EditorTab.gesture t)
        = EditorTab.Undo^[EditorTab.kUndoLimit] (gs.foldl EditorTab.gesture t)) := by
  have hcslen : (gs.map fun g => g.2.done).length = 105 := by
    rw [List.length_map, hlen]; rfl
  obtain ⟨h1, h2, _⟩ := pushes_of_full (gs.map fun g => g.2.done) t.mUndoStack
    (by rw [hempty]; rfl) (by rw [hempty]; decide) (by rw [hempty]; decide)
  rw [← gestures_mUndoStack] at h1 h2
  have hcl : (gs.foldl EditorTab.gesture t).mUndoStack.command_list
      = (gs.drop 5).map (fun g => g.2.done) := by
    rw [h1, hempty, hcslen, List.map_drop]; rfl
  have hl100 : (gs.foldl EditorTab.gesture t).mUndoStack.command_list.length = 100 := by
    rw [hcl, List.length_map, List.length_drop, hlen]; rfl
  have hidx : (gs.foldl EditorTab.gesture t).mUndoStack.index = 100 := by rw [h2, hl100]
  have hwf : (gs.foldl EditorTab.gesture t).mUndoStack.index ≤
      (gs.foldl EditorTab.gesture t).mUndoStack.command_list.length := by rw [h2]
  have hge : ∀ k, 100 ≤ k → EditorTab.Undo^[k] (gs.foldl EditorTab.gesture t)
      = EditorTab.Undo^[100] (gs.foldl EditorTab.gesture t) := by
    intro k hk
    have := Undo_iterate_ge (gs.foldl EditorTab.gesture t) k hwf (by rw [hidx]; exact hk)
    rw [hidx] at this
    exact this
  have hle : ∀ k, k ≤ 100 →
      (EditorTab.Undo^[k] (gs.foldl EditorTab.gesture t)).mUndoStack.index = 100 - k ∧
      (EditorTab.Undo^[k] (gs.foldl EditorTab.gesture t)).mScene
        = (((gs.drop 5).map (fun g => g.2.done)).drop (100 - k)).foldr
            Command.oldScene (gs.foldl EditorTab.gesture t).mScene := by
    intro k hk
    obtain ⟨a, b⟩ := Undo_iterate_le (gs.foldl EditorTab.gesture t) k hwf (by rw [hidx]; exact hk)
    constructor
    · rw [a, hidx]
    · rw [b, hidx, ← hl100, List.take_length, hl100, hcl]
  refine ⟨hidx, hcl, ?_, ?_, ?_⟩
  · intro k
    by_cases hk : k ≤ 100
    · exact (hle k hk).1
    · rw [hge k (by omega), (hle 100 (Nat.le_refl _)).1]
      simp only [EditorTab.kUndoLimit]; omega
  · intro k
    by_cases hk : k ≤ 100
    · exact (hle k hk).2
    · rw [hge k (by omega), (hle 100 (Nat.le_refl _)).2]
      have : EditorTab.kUndoLimit - k = 100 - 100 := by
        simp only [EditorTab.kUndoLimit]; omega
      rw [this]
  · intro k hk
    exact hge k hk

/-- Witness for C3: 105 selection gestures on the example tab, then 200 calls
of `Undo`. -/
theorem C3_history_bounded_witness :
    (exLongHistory.foldl EditorTab.gesture exTab).mUndoStack.index = EditorTab.kUndoLimit ∧
    (EditorTab.Undo^[200] (exLongHistory.foldl EditorTab.gesture exTab)).mUndoStack.index
      = EditorTab.kUndoLimit - 200 ∧
    EditorTab.Undo^[200] (exLongHistory.foldl EditorTab.gesture exTab)
      = EditorTab.Undo^[EditorTab.kUndoLimit] (exLongHistory.foldl EditorTab.gesture exTab) :=
  ⟨(C3_history_bounded exTab exLongHistory rfl (by simp [exLongHistory])).1,
   (C3_history_bounded exTab exLongHistory rfl (by simp [exLongHistory])).2.2.1 200,
   (C3_history_bounded exTab exLongHistory rfl (by simp [exLongHistory])).2.2.2.2 200
      (by decide)⟩

/-! ### Zoom -/

theorem bitLengthAux_spec (fuel n : Nat) (h : n ≤ fuel) (hn : 0 < n) :
    2 ^ (F32.bitLengthAux fuel n - 1) ≤ n ∧ n < 2 ^ F32.bitLengthAux fuel n := by
  induction fuel generalizing n with
  | zero => omega
  | succ f ih =>
    unfold F32.bitLengthAux
    have hne : n ≠ 0 := by omega
    simp only [hne, if_false]
    by_cases h2 : n / 2 = 0
    · have : n = 1 := by omega
      subst this
      cases f <;> simp [F32.bitLengthAux]
    · have hpos : 0 < n / 2 := Nat.pos_of_ne_zero h2
      obtain ⟨a, b⟩ := ih (n / 2) (by omega) hpos
      have hb : 0 < F32.bitLengthAux f (n / 2) := by
        cases f with
        | zero => omega
        | succ f => unfold F32.bitLengthAux; simp [h2]
      constructor
      · have : F32.bitLengthAux f (n / 2) + 1 - 1 = (F32.bitLengthAux f (n / 2) - 1) + 1 := by
          omega
        rw [this, pow_succ]
        omega
      · rw [pow_succ]
        omega

theorem bitLength_spec (n : Nat) (hn : 0 < n) :
    2 ^ (F32.bitLength n - 1) ≤ n ∧ n < 2 ^ F32.bitLength n :=
  bitLengthAux_spec n n (Nat.le_refl n) hn

theorem KZoomFactor_nearest_tenth :
    (2 : Int) ^ 23 ≤ KZoomFactor.mant ∧ KZoomFactor.mant < 2 ^ 24 ∧
    |KZoomFactor.toRat - 1 / 10| < (2 : ℚ) ^ (-28 : ℤ) := by
  refine ⟨by decide, by decide, ?_⟩
  rw [abs_lt]
  constructor <;> norm_num [KZoomFactor, F32.toRat]

theorem zoomIn_guard_bound :
    F32.add F32.one (F32.mul KZoomFactor KMaxZoomInLevels) = { mant := 10066330, exp := -22 } := by
  rfl

theorem zoomOut_guard_bound :
    F32.sub F32.one (F32.mul KZoomFactor KMaxZoomOutLevels) = { mant := 8388608, exp := -24 } := by
  rfl

set_option maxRecDepth 20000 in
theorem zoomIn_fourteen :
    (zoomRun (List.replicate 14 ZoomCall.zoomIn) ZoomView.initial).iZoomLevel
      = { mant := 10066329, exp := -22 } := by
  rfl

set_option maxRecDepth 20000 in
theorem zoomIn_fifteen :
    (zoomRun (List.replicate 15 ZoomCall.zoomIn) ZoomView.initial).iZoomLevel
      = { mant := 10485759, exp := -22 } := by
  rfl

set_option maxRecDepth 20000 in
theorem zoomOut_five :
    (zoomRun (List.replicate 5 ZoomCall.zoomOut) ZoomView.initial).iZoomLevel
      = { mant := 16777213, exp := -25 } := by
  rfl

/-- Claim C11, evaluated at the failing input. In the `float` arithmetic of the
source the bound of the `ZoomIn` guard, `1.0f + 0.10f * 14.0f`, is
`10066330 / 2^22` (about 2.4000001) while fourteen `ZoomIn` calls from the
default level give `10066329 / 2^22` (about 2.3999999), which is still below
it: the fifteenth call passes the guard and the level becomes
`10485759 / 2^22` (about 2.4999998), above `1 + 1.4`. Five `ZoomOut` calls
from the default level give `16777213 / 2^25` (about 0.49999991), below
`1 - 0.5`. -/
theorem C11_zoom_level_leaves_the_range :
    (F32.add F32.one (F32.mul KZoomFactor KMaxZoomInLevels)).toRat = 10066330 / 2 ^ 22 ∧
    (zoomRun (List.replicate 14 ZoomCall.zoomIn) ZoomView.initial).iZoomLevel.toRat
      = 10066329 / 2 ^ 22 ∧
    (zoomRun (List.replicate 15 ZoomCall.zoomIn) ZoomView.initial).iZoomLevel.toRat
      = 10485759 / 2 ^ 22 ∧
    (1 : ℚ) + 7 / 5 <
      (zoomRun (List.replicate 15 ZoomCall.zoomIn) ZoomView.initial).iZoomLevel.toRat ∧
    (zoomRun (List.replicate 5 ZoomCall.zoomOut) ZoomView.initial).iZoomLevel.toRat
      = 16777213 / 2 ^ 25 ∧
    (zoomRun (List.replicate 5 ZoomCall.zoomOut) ZoomView.initial).iZoomLevel.toRat
      < 1 - 1 / 2 := by
  rw [zoomIn_guard_bound, zoomIn_fourteen, zoomIn_fifteen, zoomOut_five]
  refine ⟨?_, ?_, ?_, ?_, ?_, ?_⟩ <;> norm_num [F32.toRat]

/-! ### Generic label, inspector sync and constructor safety -/

/-- Claim C17. For every `MoveItemsCommand` whose new position data holds a
number of items `n` different from 1, the constructor succeeds and the label
is "Move n item(s)" with `n` the count of the new position data, whatever the
old position data and the kinds of the items. -/
theorem C17_generic_label (oldPositions newPositions : ItemPositionData)
    (hn : newPositions.Count ≠ 1) :
    (MoveItemsCommand.new oldPositions newPositions).map MoveItemsCommand.text =
      some ("Move " ++ toString newPositions.Count ++ " item(s)") := by
  rw [new_text]
  unfold MoveItemsCommand.ctorText
  simp [hn]

/-- Witness for C17: a move of one map object together with one collision
line, with nothing captured in the old data. -/
theorem C17_generic_label_witness :
    (MoveItemsCommand.new { mRects := [], mLines := [] }
        { mRects := [(1, ⟨0, 0, ⟨0, 0, 10, 10⟩⟩)], mLines := [(2, ⟨0, 0, ⟨0, 0, 5, 5⟩⟩)] }).map
        MoveItemsCommand.text
      = some ("Move " ++ toString 2 ++ " item(s)") :=
  C17_generic_label { mRects := [], mLines := [] }
    { mRects := [(1, ⟨0, 0, ⟨0, 0, 10, 10⟩⟩)], mLines := [(2, ⟨0, 0, ⟨0, 0, 5, 5⟩⟩)] } (by decide)

theorem soleItem_eq_some (s : Finset ItemRef) (a : ItemRef) :
    soleItem s = some a ↔ s = {a} := by
  obtain ⟨m, hm⟩ := s
  induction m using Quot.inductionOn with
  | _ l =>
    have hval : soleItem ⟨Quot.mk _ l, hm⟩ = soleOfList l := rfl
    rw [hval]
    constructor
    · intro h
      match l, h with
      | [x], h =>
        simp only [soleOfList, Option.some.injEq] at h
        subst h
        rfl
    · intro h
      have hv := congrArg Finset.val h
      have hl : l = [a] := by
        have : (l : Multiset ItemRef) = ({a} : Multiset ItemRef) := hv
        simpa using this
      subst hl
      rfl

theorem soleItem_eq_none (s : Finset ItemRef) : soleItem s = none ↔ s.card ≠ 1 := by
  constructor
  · intro h hc
    obtain ⟨a, ha⟩ := Finset.card_eq_one.1 hc
    rw [(soleItem_eq_some s a).2 ha] at h
    exact Option.noConfusion h
  · intro h
    cases hs : soleItem s with
    | none => rfl
    | some a =>
      exact absurd (by rw [(soleItem_eq_some s a).1 hs]; rfl) h

theorem SyncPropertyEditor_eq_perform (t : EditorTab) :
    SetSelectionCommand.SyncPropertyEditor t = (syncCall t.mScene.selectedItems).perform t := by
  unfold SetSelectionCommand.SyncPropertyEditor syncCall
  cases soleItem t.mScene.selectedItems <;> rfl

/-- Claim C18. For every scene selection, `SyncPropertyEditor` performs exactly
one inspector call: it calls `PopulatePropertyEditor` with an item if and only
if that item is the one selected item, and it calls `ClearPropertyEditor` if
and only if the number of selected items is not one (zero, or two or more). -/
theorem C18_sync_populates_iff_single (t : EditorTab) (item : ItemRef) :
    SetSelectionCommand.SyncPropertyEditor t = (syncCall t.mScene.selectedItems).perform t ∧
    (syncCall t.mScene.selectedItems = InspectorCall.populate item
      ↔ t.mScene.selectedItems = {item}) ∧
    ((∃ x, syncCall t.mScene.selectedItems = InspectorCall.populate x)
      ↔ t.mScene.selectedItems.card = 1) ∧
    (syncCall t.mScene.selectedItems = InspectorCall.clear
      ↔ t.mScene.selectedItems.card ≠ 1) ∧
    (t.mScene.selectedItems = {item} →
      SetSelectionCommand.SyncPropertyEditor t = t.PopulatePropertyEditor item) ∧
    (t.mScene.selectedItems.card ≠ 1 →
      SetSelectionCommand.SyncPropertyEditor t = t.ClearPropertyEditor) := by
  have hsome : ∀ x, syncCall t.mScene.selectedItems = InspectorCall.populate x
      ↔ t.mScene.selectedItems = {x} := by
    intro x
    rw [← soleItem_eq_some]
    unfold syncCall
    cases soleItem t.mScene.selectedItems <;> simp
  have hnone : syncCall t.mScene.selectedItems = InspectorCall.clear
      ↔ t.mScene.selectedItems.card ≠ 1 := by
    rw [← soleItem_eq_none]
    unfold syncCall
    cases soleItem t.mScene.selectedItems <;> simp
  refine ⟨SyncPropertyEditor_eq_perform t, hsome item, ?_, hnone, ?_, ?_⟩
  · rw [Finset.card_eq_one]
    exact exists_congr hsome
  · intro h
    rw [SyncPropertyEditor_eq_perform, (hsome item).2 h]; rfl
  · intro h
    rw [SyncPropertyEditor_eq_perform, hnone.2 h]; rfl

/-- Witness for C18: the example tab with rect item 1 selected, and the
example tab with nothing selected. -/
theorem C18_sync_populates_iff_single_witness :
    SetSelectionCommand.SyncPropertyEditor
        { exTab with mScene := withSelection [ItemRef.rect 1] exScene }
      = ({ exTab with mScene := withSelection [ItemRef.rect 1] exScene } :
          EditorTab).PopulatePropertyEditor (ItemRef.rect 1) ∧
    SetSelectionCommand.SyncPropertyEditor exTab = exTab.ClearPropertyEditor :=
  ⟨(C18_sync_populates_iff_single
      { exTab with mScene := withSelection [ItemRef.rect 1] exScene } (ItemRef.rect 1)).2.2.2.2.1
      (by decide),
   (C18_sync_populates_iff_single exTab (ItemRef.rect 1)).2.2.2.2.2 (by decide)⟩

/-- Claim C19. For old/new position data capturing the same single item (the
new data holds one item, the old data holds a line entry when the new data
does and a rect entry otherwise), every lookup the `MoveItemsCommand`
constructor dereferences is present (the old line in the line branch, the new
and the old rect in the rect branch) and the constructor sets a label. -/
theorem C19_constructor_never_null (oldPositions newPositions : ItemPositionData)
    (hcount : newPositions.Count = 1)
    (hline : newPositions.FirstLinePos.isSome → oldPositions.FirstLinePos.isSome)
    (hrect : newPositions.FirstLinePos = none → oldPositions.FirstRectPos.isSome) :
    (newPositions.FirstLinePos.isSome → oldPositions.FirstLinePos.isSome) ∧
    (newPositions.FirstLinePos = none →
      newPositions.FirstRectPos.isSome ∧ oldPositions.FirstRectPos.isSome) ∧
    (MoveItemsCommand.ctorText oldPositions newPositions).isSome ∧
    (MoveItemsCommand.new oldPositions newPositions).isSome := by
  have hnewrect : newPositions.FirstLinePos = none → newPositions.FirstRectPos.isSome := by
    intro h
    obtain ⟨rs, ls⟩ := newPositions
    cases ls with
    | nil =>
      cases rs with
      | nil => simp [ItemPositionData.Count] at hcount
      | cons r rs => simp [ItemPositionData.FirstRectPos]
    | cons l ls => simp [ItemPositionData.FirstLinePos] at h
  have htext : (MoveItemsCommand.ctorText oldPositions newPositions).isSome := by
    unfold MoveItemsCommand.ctorText
    simp only [hcount, if_true]
    cases hnl : newPositions.FirstLinePos with
    | some nl =>
      have hol := hline (by simp [hnl])
      obtain ⟨ol, hol2⟩ := Option.isSome_iff_exists.1 hol
      simp only [hol2]
      split <;> [skip; split] <;> rfl
    | none =>
      obtain ⟨nr, hnr⟩ := Option.isSome_iff_exists.1 (hnewrect hnl)
      obtain ⟨orr, hor⟩ := Option.isSome_iff_exists.1 (hrect hnl)
      simp only [hnr, hor]
      split <;> [skip; split] <;> rfl
  refine ⟨hline, fun h => ⟨hnewrect h, hrect h⟩, htext, ?_⟩
  unfold MoveItemsCommand.new
  simpa using htext

/-- Witness for C19: a single collision line and a single map object. -/
theorem C19_constructor_never_null_witness :
    (MoveItemsCommand.new (singleLine 2 ⟨0, 0, ⟨0, 0, 5, 5⟩⟩)
        (singleLine 2 ⟨1, 0, ⟨0, 0, 5, 5⟩⟩)).isSome ∧
    (MoveItemsCommand.new (singleRect 1 ⟨0, 0, ⟨0, 0, 10, 10⟩⟩)
        (singleRect 1 ⟨3, 4, ⟨0, 0, 10, 10⟩⟩)).isSome :=
  ⟨(C19_constructor_never_null (singleLine 2 ⟨0, 0, ⟨0, 0, 5, 5⟩⟩)
      (singleLine 2 ⟨1, 0, ⟨0, 0, 5, 5⟩⟩) (by decide) (by decide) (by decide)).2.2.2,
   (C19_constructor_never_null (singleRect 1 ⟨0, 0, ⟨0, 0, 10, 10⟩⟩)
      (singleRect 1 ⟨3, 4, ⟨0, 0, 10, 10⟩⟩) (by decide) (by decide) (by decide)).2.2.2⟩

/-! ### Opening a path -/

/-- Claim C12, evaluated at a failing input. The example window has a tab open
for `C:/levels/foo.json`; the file name `C:\levels\foo.json` normalises to the
same path, yet `onOpenPath` finds no open tab for it, loads the file again
and appends a second tab, which becomes current. A file name differing in
letter case only is found and focused. -/
theorem C12_backslash_name_opens_second_tab :
    specNormalizePath "C:\\levels\\foo.json" = specNormalizePath "C:/levels/foo.json" ∧
    findOpenTab exWindow.tabs "C:\\levels\\foo.json" = none ∧
    (exWindow.onOpenPath exOpenEnv "C:\\levels\\foo.json" false).ret = true ∧
    (exWindow.onOpenPath exOpenEnv "C:\\levels\\foo.json" false).window.tabs.length = 2 ∧
    (exWindow.onOpenPath exOpenEnv "C:\\levels\\foo.json" false).window.currentIndex = 1 ∧
    (exWindow.onOpenPath exOpenEnv "c:/Levels/FOO.json" false).window.tabs.length = 1 := by
  decide

theorem catchPrefix_injective : Function.Injective catchPrefix := by
  intro a b
  cases a <;> cases b <;> first | (intro _; rfl) | (intro h; revert h; decide)

theorem onOpenPath_of_failed (env : OpenEnv) (w : EditorMainWindow) (fullFileName : String)
    (createNewPath : Bool) (message : String)
    (h : convertLvl env fullFileName createNewPath = Conversion.failed message) :
    w.onOpenPath env fullFileName createNewPath
      = { ret := false, window := w, shown := [message] } := by
  unfold EditorMainWindow.onOpenPath
  rw [h]

/-- Claim C13. In `onOpenPath` every classified level API error kind has its own
message prefix (the map from kinds to prefixes is injective, and the prefix of
every kind other than the base class is not empty); an exception thrown by
`EnumeratePaths` or by `ExportPathBinaryToJson` makes `onOpenPath` return false
after showing exactly the prefix of its kind followed by its detail, with the
window unchanged; and for the residual base kind the message is the text of
`what()` alone. -/
theorem C13_catch_chain_messages (env : OpenEnv) (w : EditorMainWindow) (fullFileName : String)
    (createNewPath : Bool) (e : ReliveApiError) :
    Function.Injective catchPrefix ∧
    (∀ k, k ≠ ReliveApiErrorKind.Exception → catchPrefix k ≠ "") ∧
    (endsWithLvl fullFileName = true → env.EnumeratePaths fullFileName = Except.error e →
      w.onOpenPath env fullFileName createNewPath
        = { ret := false, window := w, shown := [catchPrefix e.kind ++ catchDetail e] }) ∧
    (∀ paths selectedPath, endsWithLvl fullFileName = true →
      env.EnumeratePaths fullFileName = Except.ok paths →
      env.SelectedPath paths = some selectedPath →
      env.ExportPathBinaryToJson env.tempFileFullPath fullFileName selectedPath
        = Except.error e →
      w.onOpenPath env fullFileName false
        = { ret := false, window := w, shown := [catchPrefix e.kind ++ catchDetail e] }) ∧
    (∀ first rest newPathId, endsWithLvl fullFileName = true →
      env.EnumeratePaths fullFileName = Except.ok (first :: rest) →
      env.getInt = some newPathId →
      env.ExportPathBinaryToJson env.tempFileFullPath fullFileName first = Except.error e →
      w.onOpenPath env fullFileName true
        = { ret := false, window := w, shown := [catchPrefix e.kind ++ catchDetail e] }) ∧
    (e.kind = ReliveApiErrorKind.Exception → catchMessage e = e.what) := by
  refine ⟨catchPrefix_injective, ?_, ?_, ?_, ?_, ?_⟩
  · intro k hk
    cases k <;> first | exact absurd rfl hk | decide
  · intro hl he
    apply onOpenPath_of_failed
    simp [convertLvl, hl, he, catchMessage]
  · intro paths sel hl he hs hx
    apply onOpenPath_of_failed
    simp [convertLvl, hl, he, hs, exportToTemp, hx, catchMessage]
  · intro first rest newPathId hl he hg hx
    apply onOpenPath_of_failed
    simp [convertLvl, hl, he, hg, exportToTemp, hx, catchMessage]
  · intro hk
    obtain ⟨k, wh, ky⟩ := e
    simp only at hk
    subst hk
    show "" ++ wh = wh
    exact String.ext (by simp)

/-- Witness for C13: the level API cannot read `level.lvl`. -/
theorem C13_catch_chain_messages_witness :
    exWindow.onOpenPath exFailingEnv "level.lvl" false
      = { ret := false, window := exWindow, shown := ["IO read failure: " ++ "level.lvl"] } :=
  (C13_catch_chain_messages exFailingEnv exWindow "level.lvl" false
    { kind := ReliveApiErrorKind.IOReadException, what := "level.lvl", key := "" }).2.2.1
    (by decide) rfl

/-- Claim C14. Whenever `onOpenPath` returns false (a conversion error, a load
error, or the user cancelling a dialog) the window is exactly as before the
call (same tabs, same current tab, same enabled state of the menu actions)
and at most one error message was shown. -/
theorem C14_failed_open_leaves_no_trace (env : OpenEnv) (w : EditorMainWindow)
    (fullFileName : String) (createNewPath : Bool)
    (hret : (w.onOpenPath env fullFileName createNewPath).ret = false) :
    (w.onOpenPath env fullFileName createNewPath).window = w ∧
    (w.onOpenPath env fullFileName createNewPath).window.tabs = w.tabs ∧
    (w.onOpenPath env fullFileName createNewPath).window.currentIndex = w.currentIndex ∧
    (w.onOpenPath env fullFileName createNewPath).window.menuActionsEnabled
      = w.menuActionsEnabled ∧
    (w.onOpenPath env fullFileName createNewPath).shown.length ≤ 1 := by
  have key : (w.onOpenPath env fullFileName createNewPath).window = w ∧
      (w.onOpenPath env fullFileName createNewPath).shown.length ≤ 1 := by
    revert hret
    unfold EditorMainWindow.onOpenPath
    cases convertLvl env fullFileName createNewPath with
    | cancelled => intro _; exact ⟨rfl, by simp⟩
    | failed message => intro _; exact ⟨rfl, by simp⟩
    | proceed fileName isTempfile newPathId selectedPath =>
      simp only
      cases findOpenTab w.tabs fileName with
      | some i => intro h; simp at h
      | none =>
        simp only
        cases loadModel env fileName createNewPath newPathId with
        | none => intro _; exact ⟨rfl, by simp⟩
        | some model => intro h; simp at h
  refine ⟨key.1, ?_, ?_, ?_, key.2⟩ <;> rw [key.1]

/-- Witness for C14: the user picks no path in the path selection dialog. -/
theorem C14_failed_open_leaves_no_trace_witness :
    (exWindow.onOpenPath exOpenEnv "level.lvl" false).window = exWindow ∧
    (exWindow.onOpenPath exOpenEnv "level.lvl" false).window.tabs = exWindow.tabs ∧
    (exWindow.onOpenPath exOpenEnv "level.lvl" false).window.currentIndex
      = exWindow.currentIndex ∧
    (exWindow.onOpenPath exOpenEnv "level.lvl" false).window.menuActionsEnabled
      = exWindow.menuActionsEnabled ∧
    (exWindow.onOpenPath exOpenEnv "level.lvl" false).shown.length ≤ 1 :=
  C14_failed_open_leaves_no_trace exOpenEnv exWindow "level.lvl" false (by decide)

/-! ### Saving, pasting and closing -/

/-- Claim C15, evaluated at the failing input. `EditorTab::Save` hands its
caller the same value whether or not the target file could be opened for
writing; when it could not, nothing is written and nothing is reported. -/
theorem C15_save_failure_not_reported (infoPath json : String) :
    (EditorTabSave infoPath json (fun _ => false)).returned
      = (EditorTabSave infoPath json (fun _ => true)).returned ∧
    (EditorTabSave infoPath json (fun _ => false)).written = none ∧
    (EditorTabSave infoPath json (fun _ => true)).written
      = some (infoPath ++ "/save_test.json", json) := by
  simp [EditorTabSave]

/-- Claim C16. For every clipboard and every active tab, the paste handler calls
the `Paste` of the active tab (and of no other tab) if and only if the
clipboard is not empty and its source game equals the game of the tab's
model; when the clipboard is not empty and the games differ, no `Paste` is
called, the window and its tabs are unchanged and the cross-game error
message is shown. -/
theorem C16_paste_only_same_game (Paste : ClipBoard → WindowTab → WindowTab)
    (w : EditorMainWindow) (idx : Nat) (pTab : WindowTab)
    (hactive : getActiveTab w = some (idx, pTab)) :
    ((w.on_actionPaste_triggered Paste).pasteCalls = [idx]
      ↔ (w.mClipBoard.isEmpty = false ∧ w.mClipBoard.sourceGame = pTab.mGame)) ∧
    ((w.on_actionPaste_triggered Paste).pasteCalls ≠ []
      ↔ (w.mClipBoard.isEmpty = false ∧ w.mClipBoard.sourceGame = pTab.mGame)) ∧
    (w.mClipBoard.isEmpty = false → w.mClipBoard.sourceGame ≠ pTab.mGame →
      (w.on_actionPaste_triggered Paste).pasteCalls = [] ∧
      (w.on_actionPaste_triggered Paste).window = w ∧
      (w.on_actionPaste_triggered Paste).shown
        = ["You can't cut/copy paste data between AO and AE"]) := by
  unfold EditorMainWindow.on_actionPaste_triggered
  rw [hactive]
  cases he : w.mClipBoard.isEmpty <;> by_cases hg : w.mClipBoard.sourceGame = pTab.mGame <;>
    simp [he, hg]

/-- Witness for C16: data copied from the other game is pasted into the tab of
the example window. -/
theorem C16_paste_only_same_game_witness :
    (exPasteWindow.on_actionPaste_triggered (fun _ pTab => pTab)).pasteCalls = [] ∧
    (exPasteWindow.on_actionPaste_triggered (fun _ pTab => pTab)).window = exPasteWindow ∧
    (exPasteWindow.on_actionPaste_triggered (fun _ pTab => pTab)).shown
      = ["You can't cut/copy paste data between AO and AE"] :=
  (C16_paste_only_same_game (fun _ pTab => pTab) exPasteWindow 0
    { mJsonFileName := "C:/levels/foo.json", isClean := true, mGame := "AE" }
    (by decide)).2.2 (by decide) (by decide)

theorem saveTabs_fst (Save : WindowTab → Bool × WindowTab) (l : List WindowTab) :
    (saveTabs Save l).1 = true ↔ ∀ pTab ∈ l, (Save pTab).1 = true := by
  induction l with
  | nil => simp [saveTabs]
  | cons a l ih =>
    unfold saveTabs
    by_cases h : (Save a).1 = true
    · simp [h, ih]
    · simp [h]

theorem saveTabs_length (Save : WindowTab → Bool × WindowTab) (l : List WindowTab) :
    (saveTabs Save l).2.length = l.length := by
  induction l with
  | nil => simp [saveTabs]
  | cons a l ih =>
    unfold saveTabs
    by_cases h : (Save a).1 = true
    · simp [h, ih]
    · simp [h]

/-- Claim C20. The close event is accepted if and only if there are no tabs, or
no tab is modified, or the user chooses Discard, or the user chooses Save and
the `Save()` of every tab returns true. When some tab is modified and the
user chooses Cancel, or chooses Save and the `Save()` of some tab returns
false, the event is ignored and no tab is removed; so when some tab is
modified the tabs are only removed after Discard or after every `Save()`
returned true. -/
theorem C20_close_event (Save : WindowTab → Bool × WindowTab) (choice : StandardButton)
    (w : EditorMainWindow) :
    ((w.closeEvent Save choice).accepted = true ↔
      (w.tabs = [] ∨ (∀ pTab ∈ w.tabs, pTab.isClean = true) ∨ choice = StandardButton.Discard ∨
        (choice = StandardButton.Save ∧ ∀ pTab ∈ w.tabs, (Save pTab).1 = true))) ∧
    ((∃ pTab ∈ w.tabs, pTab.isClean = false) →
      (choice = StandardButton.Cancel ∨
        (choice = StandardButton.Save ∧ ∃ pTab ∈ w.tabs, (Save pTab).1 = false)) →
      (w.closeEvent Save choice).accepted = false ∧
      (w.closeEvent Save choice).window.tabs.length = w.tabs.length) ∧
    ((∃ pTab ∈ w.tabs, pTab.isClean = false) →
      (w.closeEvent Save choice).window.tabs.length < w.tabs.length →
      (choice = StandardButton.Discard ∨
        (choice = StandardButton.Save ∧ ∀ pTab ∈ w.tabs, (Save pTab).1 = true))) := by
  have hany : (w.tabs.any fun pTab => !pTab.isClean) = true
      ↔ ∃ pTab ∈ w.tabs, pTab.isClean = false := by
    simp [List.any_eq_true]
  have hsave := saveTabs_fst Save w.tabs
  have hlen := saveTabs_length Save w.tabs
  by_cases hempty : w.tabs = []
  · have hres : w.closeEvent Save choice = { accepted := true, window := w } := by
      unfold EditorMainWindow.closeEvent; simp [hempty]
    rw [hres]
    refine ⟨⟨fun _ => Or.inl hempty, fun _ => rfl⟩, ?_, ?_⟩
    · rintro ⟨pTab, hp, _⟩
      rw [hempty] at hp
      cases hp
    · rintro ⟨pTab, hp, _⟩
      rw [hempty] at hp
      cases hp
  · have hpos : w.tabs.length > 0 := List.length_pos.2 hempty
    by_cases hd : ∃ pTab ∈ w.tabs, pTab.isClean = false
    · have hany2 := hany.2 hd
      have hnc : ¬ ∀ pTab ∈ w.tabs, pTab.isClean = true := by
        intro h
        obtain ⟨pTab, hp, hf⟩ := hd
        rw [h pTab hp] at hf
        cases hf
      cases choice with
      | Save =>
        by_cases hs : (saveTabs Save w.tabs).1 = true
        · have hres : w.closeEvent Save StandardButton.Save
              = { accepted := true
                  window := ({ w with tabs := (saveTabs Save w.tabs).2 }).clearTabs } := by
            unfold EditorMainWindow.closeEvent; simp [hpos, hany2, hs]
          rw [hres]
          refine ⟨⟨fun _ => Or.inr (Or.inr (Or.inr ⟨rfl, hsave.1 hs⟩)), fun _ => rfl⟩, ?_, ?_⟩
          · intro _ h
            rcases h with h | ⟨_, pTab, hp, hf⟩
            · cases h
            · rw [hsave.1 hs pTab hp] at hf
              cases hf
          · intro _ _
            exact Or.inr ⟨rfl, hsave.1 hs⟩
        · have hs2 : (saveTabs Save w.tabs).1 = false := by
            cases h : (saveTabs Save w.tabs).1
            · rfl
            · exact absurd h hs
          have hres : w.closeEvent Save StandardButton.Save
              = { accepted := false, window := { w with tabs := (saveTabs Save w.tabs).2 } } := by
            unfold EditorMainWindow.closeEvent; simp [hpos, hany2, hs2]
          rw [hres]
          refine ⟨⟨fun h => Bool.noConfusion h, ?_⟩, ?_, ?_⟩
          · intro h
            rcases h with h | h | h | ⟨_, h⟩
            · exact absurd h hempty
            · exact absurd h hnc
            · cases h
            · exact absurd (hsave.2 h) hs
          · intro _ _
            exact ⟨rfl, hlen⟩
          · intro _ h
            exact absurd h (by simp only [hlen]; exact Nat.lt_irrefl _)
      | Discard =>
        have hres : w.closeEvent Save StandardButton.Discard
            = { accepted := true, window := w.clearTabs } := by
          unfold EditorMainWindow.closeEvent; simp [hpos, hany2]
        rw [hres]
        refine ⟨⟨fun _ => Or.inr (Or.inr (Or.inl rfl)), fun _ => rfl⟩, ?_, ?_⟩
        · intro _ h
          rcases h with h | ⟨h, _⟩ <;> cases h
        · intro _ _
          exact Or.inl rfl
      | Cancel =>
        have hres : w.closeEvent Save StandardButton.Cancel
            = { accepted := false, window := w } := by
          unfold EditorMainWindow.closeEvent; simp [hpos, hany2]
        rw [hres]
        refine ⟨⟨fun h => Bool.noConfusion h, ?_⟩, ?_, ?_⟩
        · intro h
          rcases h with h | h | h | ⟨h, _⟩
          · exact absurd h hempty
          · exact absurd h hnc
          · cases h
          · cases h
        · intro _ _
          exact ⟨rfl, rfl⟩
        · intro _ h
          exact absurd h (Nat.lt_irrefl _)
    · have hany2 : (w.tabs.any fun pTab => !pTab.isClean) = false := by
        rw [Bool.eq_false_iff]; exact fun h => hd (hany.1 h)
      have hc : ∀ pTab ∈ w.tabs, pTab.isClean = true := by
        intro pTab hp
        cases h : pTab.isClean
        · exact absurd ⟨pTab, hp, h⟩ hd
        · rfl
      have hres : w.closeEvent Save choice = { accepted := true, window := w.clearTabs } := by
        unfold EditorMainWindow.closeEvent; simp [hpos, hany2]
      rw [hres]
      refine ⟨⟨fun _ => Or.inr (Or.inl hc), fun _ => rfl⟩, ?_, ?_⟩
      · intro h; exact absurd h hd
      · intro h; exact absurd h hd

/-- Witness for C20: one tab of the example window is modified and the user
chooses Cancel, or chooses Save while saving fails. -/
theorem C20_close_event_witness :
    ((exDirtyWindow.closeEvent exSaveFails StandardButton.Cancel).accepted = false ∧
      (exDirtyWindow.closeEvent exSaveFails StandardButton.Cancel).window.tabs.length
        = exDirtyWindow.tabs.length) ∧
    ((exDirtyWindow.closeEvent exSaveFails StandardButton.Save).accepted = false ∧
      (exDirtyWindow.closeEvent exSaveFails StandardButton.Save).window.tabs.length
        = exDirtyWindow.tabs.length) :=
  ⟨(C20_close_event exSaveFails StandardButton.Cancel exDirtyWindow).2.1 (by decide)
      (Or.inl rfl),
   (C20_close_event exSaveFails StandardButton.Save exDirtyWindow).2.1 (by decide)
      (Or.inr ⟨rfl, by decide⟩)⟩

end QtEditor
